import Mathlib

/-!
Verification of the event-producing YAML parser (src/parser.go) against its
specification. The Go code is shallowly embedded: the single mutable
`yaml_parser_t` object becomes an explicit state record threaded through pure
functions; byte slices become `List Nat`; the externally produced token queue
(the scanner is not part of the verified source) is modelled as the list of
tokens the scanner will ever deliver, so that `peek_token` returns `none`
exactly when the scanner fails to supply a further token. Go runtime panics
(nil-pointer dereferences, out-of-range slice indexing) are modelled by a
distinguished `crash` outcome.
-/

/-- Source position mark, copied by value from tokens (spec section 3). -/
structure yaml_mark_t where
  index : Nat := 0
  line : Nat := 0
  column : Nat := 0
deriving DecidableEq, Repr

/-- Token kinds, as in the repository's token type enumeration
(modelled from the spec, section 3: the enumeration itself is declared
outside src/). -/
inductive yaml_token_type_t
  | YAML_NO_TOKEN
  | YAML_STREAM_START_TOKEN
  | YAML_STREAM_END_TOKEN
  | YAML_VERSION_DIRECTIVE_TOKEN
  | YAML_TAG_DIRECTIVE_TOKEN
  | YAML_DOCUMENT_START_TOKEN
  | YAML_DOCUMENT_END_TOKEN
  | YAML_BLOCK_SEQUENCE_START_TOKEN
  | YAML_BLOCK_MAPPING_START_TOKEN
  | YAML_BLOCK_END_TOKEN
  | YAML_BLOCK_ENTRY_TOKEN
  | YAML_FLOW_SEQUENCE_START_TOKEN
  | YAML_FLOW_SEQUENCE_END_TOKEN
  | YAML_FLOW_MAPPING_START_TOKEN
  | YAML_FLOW_MAPPING_END_TOKEN
  | YAML_FLOW_ENTRY_TOKEN
  | YAML_KEY_TOKEN
  | YAML_VALUE_TOKEN
  | YAML_ALIAS_TOKEN
  | YAML_ANCHOR_TOKEN
  | YAML_TAG_TOKEN
  | YAML_SCALAR_TOKEN
deriving DecidableEq, Repr

/-- Event kinds (modelled from the spec, section 3). -/
inductive yaml_event_type_t
  | YAML_NO_EVENT
  | YAML_STREAM_START_EVENT
  | YAML_STREAM_END_EVENT
  | YAML_DOCUMENT_START_EVENT
  | YAML_DOCUMENT_END_EVENT
  | YAML_ALIAS_EVENT
  | YAML_SCALAR_EVENT
  | YAML_SEQUENCE_START_EVENT
  | YAML_SEQUENCE_END_EVENT
  | YAML_MAPPING_START_EVENT
  | YAML_MAPPING_END_EVENT
deriving DecidableEq, Repr

/-- Error categories (modelled from the spec, section 7). -/
inductive yaml_error_type_t
  | YAML_NO_ERROR
  | YAML_READER_ERROR
  | YAML_SCANNER_ERROR
  | YAML_PARSER_ERROR
deriving DecidableEq, Repr

/-- The twenty parser states plus the terminal END state (spec section 4.3;
the enumeration itself is declared outside src/). -/
inductive yaml_parser_state_t
  | YAML_PARSE_STREAM_START_STATE
  | YAML_PARSE_IMPLICIT_DOCUMENT_START_STATE
  | YAML_PARSE_DOCUMENT_START_STATE
  | YAML_PARSE_DOCUMENT_CONTENT_STATE
  | YAML_PARSE_DOCUMENT_END_STATE
  | YAML_PARSE_BLOCK_NODE_STATE
  | YAML_PARSE_BLOCK_NODE_OR_INDENTLESS_SEQUENCE_STATE
  | YAML_PARSE_FLOW_NODE_STATE
  | YAML_PARSE_BLOCK_SEQUENCE_FIRST_ENTRY_STATE
  | YAML_PARSE_BLOCK_SEQUENCE_ENTRY_STATE
  | YAML_PARSE_INDENTLESS_SEQUENCE_ENTRY_STATE
  | YAML_PARSE_BLOCK_MAPPING_FIRST_KEY_STATE
  | YAML_PARSE_BLOCK_MAPPING_KEY_STATE
  | YAML_PARSE_BLOCK_MAPPING_VALUE_STATE
  | YAML_PARSE_FLOW_SEQUENCE_FIRST_ENTRY_STATE
  | YAML_PARSE_FLOW_SEQUENCE_ENTRY_STATE
  | YAML_PARSE_FLOW_SEQUENCE_ENTRY_MAPPING_KEY_STATE
  | YAML_PARSE_FLOW_SEQUENCE_ENTRY_MAPPING_VALUE_STATE
  | YAML_PARSE_FLOW_SEQUENCE_ENTRY_MAPPING_END_STATE
  | YAML_PARSE_FLOW_MAPPING_FIRST_KEY_STATE
  | YAML_PARSE_FLOW_MAPPING_KEY_STATE
  | YAML_PARSE_FLOW_MAPPING_VALUE_STATE
  | YAML_PARSE_FLOW_MAPPING_EMPTY_VALUE_STATE
  | YAML_PARSE_END_STATE
deriving DecidableEq, Repr

/-- Scalar style constants; events store the style numerically, mirroring the
Go `yaml_style_t` integer conversions (modelled from the spec, section 3). -/
def YAML_PLAIN_SCALAR_STYLE : Nat := 1

/-- Block collection style constant for sequence and mapping start events. -/
def YAML_BLOCK_SEQUENCE_STYLE : Nat := 1

/-- Flow sequence style constant. -/
def YAML_FLOW_SEQUENCE_STYLE : Nat := 2

/-- Block mapping style constant. -/
def YAML_BLOCK_MAPPING_STYLE : Nat := 1

/-- Flow mapping style constant. -/
def YAML_FLOW_MAPPING_STYLE : Nat := 2

/-- Version directive payload: the `%YAML major.minor` numbers. -/
structure yaml_version_directive_t where
  major : Nat := 0
  minor : Nat := 0
deriving DecidableEq, Repr

/-- Tag directive payload. The Go field `prefix` is renamed `prefix_bytes`
(`prefix` is a Lean keyword); the spec itself calls the components
`handle_bytes` and `prefix_bytes`. -/
structure yaml_tag_directive_t where
  handle : List Nat := []
  prefix_bytes : List Nat := []
deriving DecidableEq, Repr

/-- Input token: a kind plus the optional per-kind payload fields
(modelled from the spec, section 3). `prefix_bytes` stands for the Go
field `prefix`. -/
structure yaml_token_t where
  token_type : yaml_token_type_t := .YAML_NO_TOKEN
  start_mark : yaml_mark_t := {}
  end_mark : yaml_mark_t := {}
  encoding : Nat := 0
  value : List Nat := []
  suffix : List Nat := []
  prefix_bytes : List Nat := []
  major : Nat := 0
  minor : Nat := 0
  style : Nat := 0
deriving DecidableEq, Repr

/-- Output event. A freshly constructed `yaml_event_t{}` in Go has every
field at its zero value, matched here by the field defaults. -/
structure yaml_event_t where
  event_type : yaml_event_type_t := .YAML_NO_EVENT
  start_mark : yaml_mark_t := {}
  end_mark : yaml_mark_t := {}
  encoding : Nat := 0
  version_directive : Option yaml_version_directive_t := none
  tag_directives : List yaml_tag_directive_t := []
  anchor : List Nat := []
  tag : List Nat := []
  value : List Nat := []
  implicit : Bool := false
  quoted_implicit : Bool := false
  style : Nat := 0
deriving DecidableEq, Repr

/-- The parser state object. `tokens` is the queue of not-yet-consumed
tokens the external scanner will deliver (the scanner itself is outside
src/): `peek_token` fails exactly when this list is exhausted. The stacks
`states` and `marks` keep their top at the list head. -/
structure yaml_parser_t where
  error : yaml_error_type_t := .YAML_NO_ERROR
  problem : String := ""
  problem_mark : yaml_mark_t := {}
  context : String := ""
  context_mark : yaml_mark_t := {}
  state : yaml_parser_state_t := .YAML_PARSE_STREAM_START_STATE
  states : List yaml_parser_state_t := []
  marks : List yaml_mark_t := []
  tag_directives : List yaml_tag_directive_t := []
  tokens : List yaml_token_t := []
  tokens_parsed : Nat := 0
  stream_end_produced : Bool := false
deriving DecidableEq, Repr

/-- Outcome of one handler (and of one `next_event` call): `ok` is Go's
`return true` with the produced event, `err` is `return false` with the
parser carrying any latched error, and `crash` models a Go runtime panic
(nil-pointer dereference or out-of-range slice index). -/
inductive parse_result
  | ok (p : yaml_parser_t) (e : yaml_event_t)
  | err (p : yaml_parser_t)
  | crash
deriving DecidableEq, Repr

/-- Result of `yaml_parser_process_directives`: success carries the parser
and the collected version/tag directive output values; `dDiverge` is the
fuel-exhaustion case of the directive loop (provably unreachable with the
fuel supplied). -/
inductive directives_result
  | dOk (p : yaml_parser_t) (vd : Option yaml_version_directive_t)
        (tds : List yaml_tag_directive_t)
  | dErr (p : yaml_parser_t)
  | dDiverge
deriving DecidableEq, Repr

/-- Result of `yaml_parser_append_tag_directive`. -/
inductive append_result
  | aOk (p : yaml_parser_t)
  | aErr (p : yaml_parser_t)
deriving DecidableEq, Repr

/-- String to byte sequence, for literal token payloads. -/
def byte_str (s : String) : List Nat := s.data.map Char.toNat

/-- Modelled from the spec (section 4.1): `peek` returns the head of the
token queue, or null when the scanner cannot supply a further token. -/
def peek_token (p : yaml_parser_t) : Option yaml_token_t := p.tokens.head?

/-- src/parser.go `skip_token`: drop the queue head, count it, and latch
`stream_end_produced` when the consumed token is stream-end. The empty-queue
case cannot arise (every call follows a successful peek). -/
def skip_token (p : yaml_parser_t) : yaml_parser_t :=
  match p.tokens with
  | [] => p
  | t :: rest =>
      { p with tokens_parsed := p.tokens_parsed + 1
             , stream_end_produced := decide (t.token_type = .YAML_STREAM_END_TOKEN)
             , tokens := rest }

/-- src/parser.go `yaml_parser_set_parser_error`. -/
def yaml_parser_set_parser_error (p : yaml_parser_t) (problem : String)
    (problem_mark : yaml_mark_t) : yaml_parser_t :=
  { p with error := .YAML_PARSER_ERROR, problem := problem
         , problem_mark := problem_mark }

/-- src/parser.go `yaml_parser_set_parser_error_context`. -/
def yaml_parser_set_parser_error_context (p : yaml_parser_t)
    (context : String) (context_mark : yaml_mark_t)
    (problem : String) (problem_mark : yaml_mark_t) : yaml_parser_t :=
  { p with error := .YAML_PARSER_ERROR
         , context := context, context_mark := context_mark
         , problem := problem, problem_mark := problem_mark }

/-- src/parser.go `yaml_parser_append_tag_directive`: reject a duplicate
handle unless duplicates are allowed, else append. -/
def yaml_parser_append_tag_directive (p : yaml_parser_t)
    (value : yaml_tag_directive_t) (allow_duplicates : Bool)
    (mark : yaml_mark_t) : append_result :=
  if p.tag_directives.any (fun tag => tag.handle = value.handle) then
    if allow_duplicates then .aOk p
    else .aErr (yaml_parser_set_parser_error p
      "found duplicate %TAG directive" mark)
  else .aOk { p with tag_directives := p.tag_directives ++ [value] }

/-- Modelled from the spec (section 4.2): the built-in default tag
directives, `!` mapped to `!` and `!!` mapped to `tag:yaml.org,2002:`
(declared outside src/). -/
def default_tag_directives : List yaml_tag_directive_t :=
  [ { handle := byte_str "!", prefix_bytes := byte_str "!" }
  , { handle := byte_str "!!", prefix_bytes := byte_str "tag:yaml.org,2002:" } ]

/-- The defaults-appending loop at the end of
`yaml_parser_process_directives`, with duplicates allowed. -/
def yaml_parser_append_tag_directives_list (p : yaml_parser_t)
    (l : List yaml_tag_directive_t) (mark : yaml_mark_t) : append_result :=
  match l with
  | [] => .aOk p
  | d :: rest =>
    match yaml_parser_append_tag_directive p d true mark with
    | .aErr q => .aErr q
    | .aOk q => yaml_parser_append_tag_directives_list q rest mark

/-- The directive-consuming loop of `yaml_parser_process_directives`,
transcribed with its shadowing quirk: the loop condition reads `token`, the
variable bound by the peek before the loop, and the peek inside the loop body
declares a fresh shadowed variable (`token := peek_token(parser)`) used only
for the nil check, so every iteration re-examines the same outer token. The
loop is given fuel for totality; each iteration consumes one queued token, so
fuel `p.tokens.length + 1` can never run out. -/
def yaml_parser_process_directives_loop (token : yaml_token_t)
    (p : yaml_parser_t) (version_directive : Option yaml_version_directive_t)
    (tag_directives : List yaml_tag_directive_t) :
    Nat → directives_result
  | 0 => .dDiverge
  | fuel + 1 =>
    if token.token_type = .YAML_VERSION_DIRECTIVE_TOKEN ∨
       token.token_type = .YAML_TAG_DIRECTIVE_TOKEN then
      if token.token_type = .YAML_VERSION_DIRECTIVE_TOKEN then
        if version_directive.isSome then
          .dErr (yaml_parser_set_parser_error p
            "found duplicate %YAML directive" token.start_mark)
        else if token.major ≠ 1 ∨ token.minor ≠ 1 then
          .dErr (yaml_parser_set_parser_error p
            "found incompatible YAML document" token.start_mark)
        else
          let vd := some { major := token.major, minor := token.minor
                           : yaml_version_directive_t }
          let p := skip_token p
          match peek_token p with
          | none => .dErr p
          | some _ =>
            yaml_parser_process_directives_loop token p vd tag_directives fuel
      else
        let value : yaml_tag_directive_t :=
          { handle := token.value, prefix_bytes := token.prefix_bytes }
        match yaml_parser_append_tag_directive p value false token.start_mark with
        | .aErr q => .dErr q
        | .aOk q =>
          let tds := tag_directives ++ [value]
          let q := skip_token q
          match peek_token q with
          | none => .dErr q
          | some _ =>
            yaml_parser_process_directives_loop token q version_directive tds fuel
    else
      .dOk p version_directive tag_directives

/-- src/parser.go `yaml_parser_process_directives`: walk leading directive
tokens, then append the default tag directives at the mark of the token
bound before the loop. The collected version/tag directive values are always
returned; Go callers that pass nil output references simply ignore them. -/
def yaml_parser_process_directives (p : yaml_parser_t) : directives_result :=
  match peek_token p with
  | none => .dErr p
  | some token =>
    match yaml_parser_process_directives_loop token p none []
        (p.tokens.length + 1) with
    | .dDiverge => .dDiverge
    | .dErr q => .dErr q
    | .dOk q version_directive tag_directives =>
      match yaml_parser_append_tag_directives_list q default_tag_directives
          token.start_mark with
      | .aErr r => .dErr r
      | .aOk r => .dOk r version_directive tag_directives

/-- src/parser.go `yaml_parser_process_empty_scalar`: a plain empty scalar
event with both marks equal to the supplied mark. -/
def yaml_parser_process_empty_scalar (p : yaml_parser_t)
    (mark : yaml_mark_t) : parse_result :=
  .ok p { event_type := .YAML_SCALAR_EVENT
        , start_mark := mark, end_mark := mark
        , value := [], implicit := true
        , style := YAML_PLAIN_SCALAR_STYLE }

/-- The tag-resolution step of `yaml_parser_parse_node`: an empty handle
means the suffix is the verbatim tag; otherwise the handle is looked up in
the directive table (first match, as the Go loop breaks on the first
`bytes.Equal` hit) and the resolved tag is prefix concatenated with suffix;
a resolved tag of length zero is the undefined-handle error. `tag_handle`
mirrors the Go local `tag_handle *[]byte`; since the Go property code
crashes before ever allocating it, every caller passes `none` and the
non-`none` branch is dead, but it is transcribed faithfully. -/
def yaml_parser_resolve_tag (p : yaml_parser_t)
    (tag_handle : Option (List Nat)) (tag_suffix : List Nat)
    (start_mark tag_mark : yaml_mark_t) : Sum (List Nat) yaml_parser_t :=
  match tag_handle with
  | none => Sum.inl []
  | some th =>
    if th.length = 0 then Sum.inl tag_suffix
    else
      let tag : List Nat :=
        match p.tag_directives.find? (fun td => decide (td.handle = th)) with
        | some td => td.prefix_bytes ++ tag_suffix
        | none => []
      if tag.length = 0 then
        Sum.inr (yaml_parser_set_parser_error_context p
          "while parsing a node" start_mark
          "found undefined tag handle" tag_mark)
      else Sum.inl tag

/-- The dispatch on the lookahead token at the end of
`yaml_parser_parse_node`, after properties have been read and the tag
resolved. -/
def yaml_parser_parse_node_dispatch (p : yaml_parser_t)
    (block indentless_sequence : Bool) (token : yaml_token_t)
    (start_mark end_mark : yaml_mark_t) (anchor : List Nat)
    (tag : List Nat) : parse_result :=
  let implicit : Bool := decide (tag.length = 0)
  if indentless_sequence ∧ token.token_type = .YAML_BLOCK_ENTRY_TOKEN then
    let end_mark := token.end_mark
    .ok { p with state := .YAML_PARSE_INDENTLESS_SEQUENCE_ENTRY_STATE }
      { event_type := .YAML_SEQUENCE_START_EVENT
      , start_mark := start_mark, end_mark := end_mark
      , anchor := anchor, tag := tag, implicit := implicit
      , style := YAML_BLOCK_SEQUENCE_STYLE }
  else if token.token_type = .YAML_SCALAR_TOKEN then
    let plain_implicit : Bool :=
      decide ((token.style = YAML_PLAIN_SCALAR_STYLE ∧ tag.length = 0) ∨
              (tag.length = 1 ∧ tag.headD 0 = 33))
    let quoted_implicit : Bool := !plain_implicit && decide (tag.length = 0)
    let end_mark := token.end_mark
    match p.states with
    | [] => .crash
    | s :: rest =>
      let p := { p with state := s, states := rest }
      .ok (skip_token p)
        { event_type := .YAML_SCALAR_EVENT
        , start_mark := start_mark, end_mark := end_mark
        , anchor := anchor, tag := tag, value := token.value
        , implicit := plain_implicit, quoted_implicit := quoted_implicit
        , style := token.style }
  else if token.token_type = .YAML_FLOW_SEQUENCE_START_TOKEN then
    let end_mark := token.end_mark
    .ok { p with state := .YAML_PARSE_FLOW_SEQUENCE_FIRST_ENTRY_STATE }
      { event_type := .YAML_SEQUENCE_START_EVENT
      , start_mark := start_mark, end_mark := end_mark
      , anchor := anchor, tag := tag, implicit := implicit
      , style := YAML_FLOW_SEQUENCE_STYLE }
  else if token.token_type = .YAML_FLOW_MAPPING_START_TOKEN then
    let end_mark := token.end_mark
    .ok { p with state := .YAML_PARSE_FLOW_MAPPING_FIRST_KEY_STATE }
      { event_type := .YAML_MAPPING_START_EVENT
      , start_mark := start_mark, end_mark := end_mark
      , anchor := anchor, tag := tag, implicit := implicit
      , style := YAML_FLOW_MAPPING_STYLE }
  else if block ∧ token.token_type = .YAML_BLOCK_SEQUENCE_START_TOKEN then
    let end_mark := token.end_mark
    .ok { p with state := .YAML_PARSE_BLOCK_SEQUENCE_FIRST_ENTRY_STATE }
      { event_type := .YAML_SEQUENCE_START_EVENT
      , start_mark := start_mark, end_mark := end_mark
      , anchor := anchor, tag := tag, implicit := implicit
      , style := YAML_BLOCK_SEQUENCE_STYLE }
  else if block ∧ token.token_type = .YAML_BLOCK_MAPPING_START_TOKEN then
    let end_mark := token.end_mark
    .ok { p with state := .YAML_PARSE_BLOCK_MAPPING_FIRST_KEY_STATE }
      { event_type := .YAML_MAPPING_START_EVENT
      , start_mark := start_mark, end_mark := end_mark
      , anchor := anchor, tag := tag, implicit := implicit
      , style := YAML_BLOCK_MAPPING_STYLE }
  else if anchor.length > 0 ∨ tag.length > 0 then
    match p.states with
    | [] => .crash
    | s :: rest =>
      .ok { p with state := s, states := rest }
        { event_type := .YAML_SCALAR_EVENT
        , start_mark := start_mark, end_mark := end_mark
        , anchor := anchor, tag := tag
        , implicit := implicit, quoted_implicit := false
        , style := YAML_PLAIN_SCALAR_STYLE }
  else
    let msg := if block then "while parsing a block node"
               else "while parsing a flow node"
    .err (yaml_parser_set_parser_error_context p msg start_mark
      "did not find expected node content" token.start_mark)

/-- Continuation of `yaml_parser_parse_node` after the property-scanning
prefix: tag resolution followed by the dispatch on the lookahead token. -/
def yaml_parser_parse_node_content (p : yaml_parser_t)
    (block indentless_sequence : Bool) (token : yaml_token_t)
    (start_mark end_mark : yaml_mark_t) (anchor : List Nat)
    (tag_handle : Option (List Nat)) (tag_suffix : List Nat)
    (tag_mark : yaml_mark_t) : parse_result :=
  match yaml_parser_resolve_tag p tag_handle tag_suffix start_mark tag_mark with
  | Sum.inr q => .err q
  | Sum.inl tag =>
    yaml_parser_parse_node_dispatch p block indentless_sequence token
      start_mark end_mark anchor tag

/-- src/parser.go `yaml_parser_parse_node`. The Go source declares
`var tag_handle *[]byte` — a nil pointer — and assigns through it
(`*tag_handle = token.value`) whenever a tag token is seen, which is a
nil-pointer dereference: those paths produce `crash`. -/
def yaml_parser_parse_node (p : yaml_parser_t)
    (block indentless_sequence : Bool) : parse_result :=
  match peek_token p with
  | none => .err p
  | some token =>
    if token.token_type = .YAML_ALIAS_TOKEN then
      match p.states with
      | [] => .crash
      | s :: rest =>
        let p := { p with state := s, states := rest }
        .ok (skip_token p)
          { event_type := .YAML_ALIAS_EVENT
          , start_mark := token.start_mark, end_mark := token.end_mark
          , anchor := token.value }
    else
      let start_mark := token.start_mark
      let end_mark := token.start_mark
      if token.token_type = .YAML_ANCHOR_TOKEN then
        let anchor := token.value
        let start_mark := token.start_mark
        let end_mark := token.end_mark
        let p := skip_token p
        match peek_token p with
        | none => .err p
        | some token =>
          if token.token_type = .YAML_TAG_TOKEN then
            .crash
          else
            yaml_parser_parse_node_content p block indentless_sequence token
              start_mark end_mark anchor none [] {}
      else if token.token_type = .YAML_TAG_TOKEN then
        .crash
      else
        yaml_parser_parse_node_content p block indentless_sequence token
          start_mark end_mark [] none [] {}

/-- src/parser.go `yaml_parser_parse_stream_start`. -/
def yaml_parser_parse_stream_start (p : yaml_parser_t) : parse_result :=
  match peek_token p with
  | none => .err p
  | some token =>
    if token.token_type ≠ .YAML_STREAM_START_TOKEN then
      .err (yaml_parser_set_parser_error p
        "did not find expected <stream-start>" token.start_mark)
    else
      let p := { p with state := .YAML_PARSE_IMPLICIT_DOCUMENT_START_STATE }
      .ok (skip_token p)
        { event_type := .YAML_STREAM_START_EVENT
        , start_mark := token.start_mark, end_mark := token.end_mark
        , encoding := token.encoding }

/-- The stray `DOCUMENT-END` skipping loop at the top of
`yaml_parser_parse_document_start` (taken when the document is not
implicit): consume document-end tokens until another token appears; `none`
means a peek inside the loop failed. The loop is given fuel for structural
totality; each iteration consumes one queued token, so the fuel supplied at
the call site, `p.tokens.length + 1`, can never run out. -/
def yaml_parser_skip_stray_document_ends (fuel : Nat) (p : yaml_parser_t) :
    Option yaml_token_t × yaml_parser_t :=
  match fuel with
  | 0 => (none, p)
  | fuel + 1 =>
    match peek_token p with
    | none => (none, p)
    | some token =>
      if token.token_type = .YAML_DOCUMENT_END_TOKEN then
        yaml_parser_skip_stray_document_ends fuel (skip_token p)
      else (some token, p)

/-- src/parser.go `yaml_parser_parse_document_start`. -/
def yaml_parser_parse_document_start (p : yaml_parser_t)
    (implicit : Bool) : parse_result :=
  match peek_token p with
  | none => .err p
  | some tok0 =>
    match (if implicit then (some tok0, p)
           else yaml_parser_skip_stray_document_ends (p.tokens.length + 1) p) with
    | (none, q) => .err q
    | (some token, p) =>
      if implicit ∧ token.token_type ≠ .YAML_VERSION_DIRECTIVE_TOKEN ∧
         token.token_type ≠ .YAML_TAG_DIRECTIVE_TOKEN ∧
         token.token_type ≠ .YAML_DOCUMENT_START_TOKEN ∧
         token.token_type ≠ .YAML_STREAM_END_TOKEN then
        match yaml_parser_process_directives p with
        | .dDiverge => .crash
        | .dErr q => .err q
        | .dOk q _ _ =>
          let q := { q with
            states := .YAML_PARSE_DOCUMENT_END_STATE :: q.states
            , state := .YAML_PARSE_BLOCK_NODE_STATE }
          .ok q
            { event_type := .YAML_DOCUMENT_START_EVENT
            , implicit := true
            , start_mark := token.start_mark, end_mark := token.end_mark }
      else if token.token_type ≠ .YAML_STREAM_END_TOKEN then
        let start_mark := token.start_mark
        match yaml_parser_process_directives p with
        | .dDiverge => .crash
        | .dErr q => .err q
        | .dOk q version_directive tag_directives =>
          match peek_token q with
          | none => .err q
          | some token =>
            if token.token_type ≠ .YAML_DOCUMENT_START_TOKEN then
              .err (yaml_parser_set_parser_error q
                "did not find expected <document start>" token.start_mark)
            else
              let q := { q with
                states := .YAML_PARSE_DOCUMENT_END_STATE :: q.states
                , state := .YAML_PARSE_DOCUMENT_CONTENT_STATE }
              let end_mark := token.end_mark
              .ok (skip_token q)
                { event_type := .YAML_DOCUMENT_START_EVENT
                , start_mark := start_mark, end_mark := end_mark
                , version_directive := version_directive
                , tag_directives := tag_directives
                , implicit := false }
      else
        let p := { p with state := .YAML_PARSE_END_STATE }
        .ok (skip_token p)
          { event_type := .YAML_STREAM_END_EVENT
          , start_mark := token.start_mark, end_mark := token.end_mark }

/-- src/parser.go `yaml_parser_parse_document_content`. -/
def yaml_parser_parse_document_content (p : yaml_parser_t) : parse_result :=
  match peek_token p with
  | none => .err p
  | some token =>
    if token.token_type = .YAML_VERSION_DIRECTIVE_TOKEN ∨
       token.token_type = .YAML_TAG_DIRECTIVE_TOKEN ∨
       token.token_type = .YAML_DOCUMENT_START_TOKEN ∨
       token.token_type = .YAML_DOCUMENT_END_TOKEN ∨
       token.token_type = .YAML_STREAM_END_TOKEN then
      match p.states with
      | [] => .crash
      | s :: rest =>
        yaml_parser_process_empty_scalar { p with state := s, states := rest }
          token.start_mark
    else
      yaml_parser_parse_node p true false

/-- src/parser.go `yaml_parser_parse_document_end`. -/
def yaml_parser_parse_document_end (p : yaml_parser_t) : parse_result :=
  match peek_token p with
  | none => .err p
  | some token =>
    let start_mark := token.start_mark
    let implicit_end := token.token_type ≠ .YAML_DOCUMENT_END_TOKEN
    let end_mark := if token.token_type = .YAML_DOCUMENT_END_TOKEN
                    then token.end_mark else token.start_mark
    let p := if token.token_type = .YAML_DOCUMENT_END_TOKEN
             then skip_token p else p
    let p := { p with tag_directives := []
                    , state := .YAML_PARSE_DOCUMENT_START_STATE }
    .ok p
      { event_type := .YAML_DOCUMENT_END_EVENT
      , start_mark := start_mark, end_mark := end_mark
      , implicit := decide implicit_end }

/-- The body of `yaml_parser_parse_block_sequence_entry` after the
first-entry prologue (identical for first and subsequent entries). -/
def yaml_parser_parse_block_sequence_entry_body (p : yaml_parser_t) :
    parse_result :=
  match peek_token p with
  | none => .err p
  | some token =>
    if token.token_type = .YAML_BLOCK_ENTRY_TOKEN then
      let mark := token.end_mark
      let p := skip_token p
      match peek_token p with
      | none => .err p
      | some token =>
        if token.token_type ≠ .YAML_BLOCK_ENTRY_TOKEN ∧
           token.token_type ≠ .YAML_BLOCK_END_TOKEN then
          yaml_parser_parse_node
            { p with states :=
                .YAML_PARSE_BLOCK_SEQUENCE_ENTRY_STATE :: p.states }
            true false
        else
          yaml_parser_process_empty_scalar
            { p with state := .YAML_PARSE_BLOCK_SEQUENCE_ENTRY_STATE } mark
    else if token.token_type = .YAML_BLOCK_END_TOKEN then
      match p.states, p.marks with
      | s :: srest, _ :: mrest =>
        let p := { p with state := s, states := srest, marks := mrest }
        .ok (skip_token p)
          { event_type := .YAML_SEQUENCE_END_EVENT
          , start_mark := token.start_mark, end_mark := token.end_mark }
      | _, _ => .crash
    else
      match p.marks with
      | mark :: mrest =>
        .err (yaml_parser_set_parser_error_context
          { p with marks := mrest }
          "while parsing a block collection" mark
          "did not find expected '-' indicator" token.start_mark)
      | [] => .crash

/-- src/parser.go `yaml_parser_parse_block_sequence_entry`. On the first
entry the peeked token is used without a nil check (its start mark is read
to push onto the mark stack), so a failed peek there is a crash; the
block-sequence-start token is then consumed. -/
def yaml_parser_parse_block_sequence_entry (p : yaml_parser_t)
    (first : Bool) : parse_result :=
  if first then
    match peek_token p with
    | none => .crash
    | some token =>
      yaml_parser_parse_block_sequence_entry_body
        (skip_token { p with marks := token.start_mark :: p.marks })
  else
    yaml_parser_parse_block_sequence_entry_body p

/-- src/parser.go `yaml_parser_parse_indentless_sequence_entry`. -/
def yaml_parser_parse_indentless_sequence_entry (p : yaml_parser_t) :
    parse_result :=
  match peek_token p with
  | none => .err p
  | some token =>
    if token.token_type = .YAML_BLOCK_ENTRY_TOKEN then
      let mark := token.end_mark
      let p := skip_token p
      match peek_token p with
      | none => .err p
      | some token =>
        if token.token_type ≠ .YAML_BLOCK_ENTRY_TOKEN ∧
           token.token_type ≠ .YAML_KEY_TOKEN ∧
           token.token_type ≠ .YAML_VALUE_TOKEN ∧
           token.token_type ≠ .YAML_BLOCK_END_TOKEN then
          yaml_parser_parse_node
            { p with states :=
                .YAML_PARSE_INDENTLESS_SEQUENCE_ENTRY_STATE :: p.states }
            true false
        else
          yaml_parser_process_empty_scalar
            { p with state := .YAML_PARSE_INDENTLESS_SEQUENCE_ENTRY_STATE }
            mark
    else
      match p.states with
      | [] => .crash
      | s :: rest =>
        .ok { p with state := s, states := rest }
          { event_type := .YAML_SEQUENCE_END_EVENT
          , start_mark := token.start_mark, end_mark := token.start_mark }

/-- The body of `yaml_parser_parse_block_mapping_key` after the first-key
prologue (identical for first and subsequent keys). -/
def yaml_parser_parse_block_mapping_key_body (p : yaml_parser_t) :
    parse_result :=
  match peek_token p with
  | none => .err p
  | some token =>
    if token.token_type = .YAML_KEY_TOKEN then
      let mark := token.end_mark
      let p := skip_token p
      match peek_token p with
      | none => .err p
      | some token =>
        if token.token_type ≠ .YAML_KEY_TOKEN ∧
           token.token_type ≠ .YAML_VALUE_TOKEN ∧
           token.token_type ≠ .YAML_BLOCK_END_TOKEN then
          yaml_parser_parse_node
            { p with states :=
                .YAML_PARSE_BLOCK_MAPPING_VALUE_STATE :: p.states }
            true true
        else
          yaml_parser_process_empty_scalar
            { p with state := .YAML_PARSE_BLOCK_MAPPING_VALUE_STATE } mark
    else if token.token_type = .YAML_BLOCK_END_TOKEN then
      match p.states, p.marks with
      | s :: srest, _ :: mrest =>
        let p := { p with state := s, states := srest, marks := mrest }
        .ok (skip_token p)
          { event_type := .YAML_MAPPING_END_EVENT
          , start_mark := token.start_mark, end_mark := token.end_mark }
      | _, _ => .crash
    else
      match p.marks with
      | mark :: mrest =>
        .err (yaml_parser_set_parser_error_context
          { p with marks := mrest }
          "while parsing a block mapping" mark
          "did not find expected key" token.start_mark)
      | [] => .crash

/-- src/parser.go `yaml_parser_parse_block_mapping_key`; the first-key call
pushes the peeked token's start mark without a nil check and consumes the
block-mapping-start token. -/
def yaml_parser_parse_block_mapping_key (p : yaml_parser_t)
    (first : Bool) : parse_result :=
  if first then
    match peek_token p with
    | none => .crash
    | some token =>
      yaml_parser_parse_block_mapping_key_body
        (skip_token { p with marks := token.start_mark :: p.marks })
  else
    yaml_parser_parse_block_mapping_key_body p

/-- src/parser.go `yaml_parser_parse_block_mapping_value`. -/
def yaml_parser_parse_block_mapping_value (p : yaml_parser_t) : parse_result :=
  match peek_token p with
  | none => .err p
  | some token =>
    if token.token_type = .YAML_VALUE_TOKEN then
      let mark := token.end_mark
      let p := skip_token p
      match peek_token p with
      | none => .err p
      | some token =>
        if token.token_type ≠ .YAML_KEY_TOKEN ∧
           token.token_type ≠ .YAML_VALUE_TOKEN ∧
           token.token_type ≠ .YAML_BLOCK_END_TOKEN then
          yaml_parser_parse_node
            { p with states :=
                .YAML_PARSE_BLOCK_MAPPING_KEY_STATE :: p.states }
            true true
        else
          yaml_parser_process_empty_scalar
            { p with state := .YAML_PARSE_BLOCK_MAPPING_KEY_STATE } mark
    else
      yaml_parser_process_empty_scalar
        { p with state := .YAML_PARSE_BLOCK_MAPPING_KEY_STATE }
        token.start_mark

/-- The common tail of `yaml_parser_parse_flow_sequence_entry`: pop the
return state and the collection mark, emit sequence-end, consume `]`. -/
def yaml_parser_flow_sequence_end_tail (p : yaml_parser_t)
    (token : yaml_token_t) : parse_result :=
  match p.states, p.marks with
  | s :: srest, _ :: mrest =>
    .ok (skip_token { p with state := s, states := srest, marks := mrest })
      { event_type := .YAML_SEQUENCE_END_EVENT
      , start_mark := token.start_mark, end_mark := token.end_mark }
  | _, _ => .crash

/-- The per-item continuation of `yaml_parser_parse_flow_sequence_entry`
(the code after the separator handling): a KEY token opens the inline
single-pair mapping, a closing `]` falls through to the common end tail,
anything else is a flow node. -/
def yaml_parser_flow_sequence_entry_item (p : yaml_parser_t)
    (token : yaml_token_t) : parse_result :=
  if token.token_type = .YAML_KEY_TOKEN then
    let p := { p with state :=
      .YAML_PARSE_FLOW_SEQUENCE_ENTRY_MAPPING_KEY_STATE }
    .ok (skip_token p)
      { event_type := .YAML_MAPPING_START_EVENT
      , start_mark := token.start_mark, end_mark := token.end_mark
      , implicit := true, style := YAML_FLOW_MAPPING_STYLE }
  else if token.token_type ≠ .YAML_FLOW_SEQUENCE_END_TOKEN then
    yaml_parser_parse_node
      { p with states :=
          .YAML_PARSE_FLOW_SEQUENCE_ENTRY_STATE :: p.states }
      false false
  else
    yaml_parser_flow_sequence_end_tail p token

/-- The body of `yaml_parser_parse_flow_sequence_entry` after the
first-entry prologue: for non-first entries a flow-entry separator is
required before the next item. -/
def yaml_parser_parse_flow_sequence_entry_body (p : yaml_parser_t)
    (first : Bool) : parse_result :=
  match peek_token p with
  | none => .err p
  | some token =>
    if token.token_type ≠ .YAML_FLOW_SEQUENCE_END_TOKEN then
      if first then
        yaml_parser_flow_sequence_entry_item p token
      else if token.token_type = .YAML_FLOW_ENTRY_TOKEN then
        let p := skip_token p
        match peek_token p with
        | none => .err p
        | some token => yaml_parser_flow_sequence_entry_item p token
      else
        match p.marks with
        | mark :: mrest =>
          .err (yaml_parser_set_parser_error_context
            { p with marks := mrest }
            "while parsing a flow sequence" mark
            "did not find expected ',' or ']'" token.start_mark)
        | [] => .crash
    else
      yaml_parser_flow_sequence_end_tail p token

/-- src/parser.go `yaml_parser_parse_flow_sequence_entry`; the first-entry
call pushes the peeked token's start mark without a nil check and consumes
the flow-sequence-start token. -/
def yaml_parser_parse_flow_sequence_entry (p : yaml_parser_t)
    (first : Bool) : parse_result :=
  if first then
    match peek_token p with
    | none => .crash
    | some token =>
      yaml_parser_parse_flow_sequence_entry_body
        (skip_token { p with marks := token.start_mark :: p.marks }) first
  else
    yaml_parser_parse_flow_sequence_entry_body p first

/-- src/parser.go `yaml_parser_parse_flow_sequence_entry_mapping_key`. -/
def yaml_parser_parse_flow_sequence_entry_mapping_key (p : yaml_parser_t) :
    parse_result :=
  match peek_token p with
  | none => .err p
  | some token =>
    if token.token_type ≠ .YAML_VALUE_TOKEN ∧
       token.token_type ≠ .YAML_FLOW_ENTRY_TOKEN ∧
       token.token_type ≠ .YAML_FLOW_SEQUENCE_END_TOKEN then
      yaml_parser_parse_node
        { p with states :=
            .YAML_PARSE_FLOW_SEQUENCE_ENTRY_MAPPING_VALUE_STATE :: p.states }
        false false
    else
      let mark := token.end_mark
      let p := skip_token p
      yaml_parser_process_empty_scalar
        { p with state :=
            .YAML_PARSE_FLOW_SEQUENCE_ENTRY_MAPPING_VALUE_STATE } mark

/-- src/parser.go `yaml_parser_parse_flow_sequence_entry_mapping_value`. -/
def yaml_parser_parse_flow_sequence_entry_mapping_value (p : yaml_parser_t) :
    parse_result :=
  match peek_token p with
  | none => .err p
  | some token =>
    if token.token_type = .YAML_VALUE_TOKEN then
      let p := skip_token p
      match peek_token p with
      | none => .err p
      | some token =>
        if token.token_type ≠ .YAML_FLOW_ENTRY_TOKEN ∧
           token.token_type ≠ .YAML_FLOW_SEQUENCE_END_TOKEN then
          yaml_parser_parse_node
            { p with states :=
                .YAML_PARSE_FLOW_SEQUENCE_ENTRY_MAPPING_END_STATE :: p.states }
            false false
        else
          yaml_parser_process_empty_scalar
            { p with state :=
                .YAML_PARSE_FLOW_SEQUENCE_ENTRY_MAPPING_END_STATE }
            token.start_mark
    else
      yaml_parser_process_empty_scalar
        { p with state := .YAML_PARSE_FLOW_SEQUENCE_ENTRY_MAPPING_END_STATE }
        token.start_mark

/-- src/parser.go `yaml_parser_parse_flow_sequence_entry_mapping_end`. -/
def yaml_parser_parse_flow_sequence_entry_mapping_end (p : yaml_parser_t) :
    parse_result :=
  match peek_token p with
  | none => .err p
  | some token =>
    .ok { p with state := .YAML_PARSE_FLOW_SEQUENCE_ENTRY_STATE }
      { event_type := .YAML_MAPPING_END_EVENT
      , start_mark := token.start_mark, end_mark := token.start_mark }

/-- The common tail of `yaml_parser_parse_flow_mapping_key`: pop the return
state and the collection mark, emit mapping-end, consume the closing token. -/
def yaml_parser_flow_mapping_end_tail (p : yaml_parser_t)
    (token : yaml_token_t) : parse_result :=
  match p.states, p.marks with
  | s :: srest, _ :: mrest =>
    .ok (skip_token { p with state := s, states := srest, marks := mrest })
      { event_type := .YAML_MAPPING_END_EVENT
      , start_mark := token.start_mark, end_mark := token.end_mark }
  | _, _ => .crash

/-- The per-item continuation of `yaml_parser_parse_flow_mapping_key`
(the code after the separator handling). -/
def yaml_parser_flow_mapping_entry_item (p : yaml_parser_t)
    (token : yaml_token_t) : parse_result :=
  if token.token_type = .YAML_KEY_TOKEN then
    let p := skip_token p
    match peek_token p with
    | none => .err p
    | some token =>
      if token.token_type ≠ .YAML_VALUE_TOKEN ∧
         token.token_type ≠ .YAML_FLOW_ENTRY_TOKEN ∧
         token.token_type ≠ .YAML_FLOW_MAPPING_END_TOKEN then
        yaml_parser_parse_node
          { p with states :=
              .YAML_PARSE_FLOW_MAPPING_VALUE_STATE :: p.states }
          false false
      else
        yaml_parser_process_empty_scalar
          { p with state := .YAML_PARSE_FLOW_MAPPING_VALUE_STATE }
          token.start_mark
  else if token.token_type ≠ .YAML_FLOW_MAPPING_END_TOKEN then
    yaml_parser_parse_node
      { p with states :=
          .YAML_PARSE_FLOW_MAPPING_EMPTY_VALUE_STATE :: p.states }
      false false
  else
    yaml_parser_flow_mapping_end_tail p token

/-- The body of `yaml_parser_parse_flow_mapping_key` after the first-key
prologue: for non-first keys a flow-entry separator is required before the
next entry. -/
def yaml_parser_parse_flow_mapping_key_body (p : yaml_parser_t)
    (first : Bool) : parse_result :=
  match peek_token p with
  | none => .err p
  | some token =>
    if token.token_type ≠ .YAML_FLOW_MAPPING_END_TOKEN then
      if first then
        yaml_parser_flow_mapping_entry_item p token
      else if token.token_type = .YAML_FLOW_ENTRY_TOKEN then
        let p := skip_token p
        match peek_token p with
        | none => .err p
        | some token => yaml_parser_flow_mapping_entry_item p token
      else
        match p.marks with
        | mark :: mrest =>
          .err (yaml_parser_set_parser_error_context
            { p with marks := mrest }
            "while parsing a flow mapping" mark
            "did not find expected ',' or '\x7d'" token.start_mark)
        | [] => .crash
    else
      yaml_parser_flow_mapping_end_tail p token

/-- src/parser.go `yaml_parser_parse_flow_mapping_key`; the first-key call
pushes the peeked token's start mark without a nil check and consumes the
flow-mapping-start token. -/
def yaml_parser_parse_flow_mapping_key (p : yaml_parser_t)
    (first : Bool) : parse_result :=
  if first then
    match peek_token p with
    | none => .crash
    | some token =>
      yaml_parser_parse_flow_mapping_key_body
        (skip_token { p with marks := token.start_mark :: p.marks }) first
  else
    yaml_parser_parse_flow_mapping_key_body p first

/-- src/parser.go `yaml_parser_parse_flow_mapping_value` (the `empty` flag
distinguishes the FLOW-MAPPING-EMPTY-VALUE state). -/
def yaml_parser_parse_flow_mapping_value (p : yaml_parser_t)
    (empty : Bool) : parse_result :=
  match peek_token p with
  | none => .err p
  | some token =>
    if empty then
      yaml_parser_process_empty_scalar
        { p with state := .YAML_PARSE_FLOW_MAPPING_KEY_STATE }
        token.start_mark
    else if token.token_type = .YAML_VALUE_TOKEN then
      let p := skip_token p
      match peek_token p with
      | none => .err p
      | some token =>
        if token.token_type ≠ .YAML_FLOW_ENTRY_TOKEN ∧
           token.token_type ≠ .YAML_FLOW_MAPPING_END_TOKEN then
          yaml_parser_parse_node
            { p with states :=
                .YAML_PARSE_FLOW_MAPPING_KEY_STATE :: p.states }
            false false
        else
          yaml_parser_process_empty_scalar
            { p with state := .YAML_PARSE_FLOW_MAPPING_KEY_STATE }
            token.start_mark
    else
      yaml_parser_process_empty_scalar
        { p with state := .YAML_PARSE_FLOW_MAPPING_KEY_STATE }
        token.start_mark

/-- src/parser.go `yaml_parser_state_machine`: dispatch on the current
state. Go has no case for the END state and panics there (`panic("invalid
parser state")`), modelled by `crash`; `yaml_parser_parse` never dispatches
in the END state. -/
def yaml_parser_state_machine (p : yaml_parser_t) : parse_result :=
  match p.state with
  | .YAML_PARSE_STREAM_START_STATE => yaml_parser_parse_stream_start p
  | .YAML_PARSE_IMPLICIT_DOCUMENT_START_STATE =>
      yaml_parser_parse_document_start p true
  | .YAML_PARSE_DOCUMENT_START_STATE =>
      yaml_parser_parse_document_start p false
  | .YAML_PARSE_DOCUMENT_CONTENT_STATE => yaml_parser_parse_document_content p
  | .YAML_PARSE_DOCUMENT_END_STATE => yaml_parser_parse_document_end p
  | .YAML_PARSE_BLOCK_NODE_STATE => yaml_parser_parse_node p true false
  | .YAML_PARSE_BLOCK_NODE_OR_INDENTLESS_SEQUENCE_STATE =>
      yaml_parser_parse_node p true true
  | .YAML_PARSE_FLOW_NODE_STATE => yaml_parser_parse_node p false false
  | .YAML_PARSE_BLOCK_SEQUENCE_FIRST_ENTRY_STATE =>
      yaml_parser_parse_block_sequence_entry p true
  | .YAML_PARSE_BLOCK_SEQUENCE_ENTRY_STATE =>
      yaml_parser_parse_block_sequence_entry p false
  | .YAML_PARSE_INDENTLESS_SEQUENCE_ENTRY_STATE =>
      yaml_parser_parse_indentless_sequence_entry p
  | .YAML_PARSE_BLOCK_MAPPING_FIRST_KEY_STATE =>
      yaml_parser_parse_block_mapping_key p true
  | .YAML_PARSE_BLOCK_MAPPING_KEY_STATE =>
      yaml_parser_parse_block_mapping_key p false
  | .YAML_PARSE_BLOCK_MAPPING_VALUE_STATE =>
      yaml_parser_parse_block_mapping_value p
  | .YAML_PARSE_FLOW_SEQUENCE_FIRST_ENTRY_STATE =>
      yaml_parser_parse_flow_sequence_entry p true
  | .YAML_PARSE_FLOW_SEQUENCE_ENTRY_STATE =>
      yaml_parser_parse_flow_sequence_entry p false
  | .YAML_PARSE_FLOW_SEQUENCE_ENTRY_MAPPING_KEY_STATE =>
      yaml_parser_parse_flow_sequence_entry_mapping_key p
  | .YAML_PARSE_FLOW_SEQUENCE_ENTRY_MAPPING_VALUE_STATE =>
      yaml_parser_parse_flow_sequence_entry_mapping_value p
  | .YAML_PARSE_FLOW_SEQUENCE_ENTRY_MAPPING_END_STATE =>
      yaml_parser_parse_flow_sequence_entry_mapping_end p
  | .YAML_PARSE_FLOW_MAPPING_FIRST_KEY_STATE =>
      yaml_parser_parse_flow_mapping_key p true
  | .YAML_PARSE_FLOW_MAPPING_KEY_STATE =>
      yaml_parser_parse_flow_mapping_key p false
  | .YAML_PARSE_FLOW_MAPPING_VALUE_STATE =>
      yaml_parser_parse_flow_mapping_value p false
  | .YAML_PARSE_FLOW_MAPPING_EMPTY_VALUE_STATE =>
      yaml_parser_parse_flow_mapping_value p true
  | .YAML_PARSE_END_STATE => .crash

/-- src/parser.go `yaml_parser_parse` (`next_event`): the event slot is
zeroed; after the stream end, a latched error, or in the END state, the call
returns true with the zero event and an unchanged parser; otherwise it runs
the state machine. -/
def yaml_parser_parse (p : yaml_parser_t) : parse_result :=
  if p.stream_end_produced = true ∨ p.error ≠ .YAML_NO_ERROR ∨
     p.state = .YAML_PARSE_END_STATE then
    .ok p {}
  else
    yaml_parser_state_machine p

/-- A freshly initialized parser over a given token stream: state
STREAM-START, everything else zero (spec section 3, lifecycle). -/
def mkParser (ts : List yaml_token_t) : yaml_parser_t := { tokens := ts }

/-- What one `next_event` call looks like to the caller: `ok` with the
event written, `failed` (returned false), or a runtime crash. -/
inductive call_result
  | ok (e : yaml_event_t)
  | failed
  | crashed
deriving DecidableEq, Repr

/-- Repeatedly call `next_event`, collecting each call's outcome and the
final parser. A crash ends the run. -/
def yaml_parser_run : yaml_parser_t → Nat → List call_result × yaml_parser_t
  | p, 0 => ([], p)
  | p, n + 1 =>
    match yaml_parser_parse p with
    | .ok q e =>
      let r := yaml_parser_run q n
      (.ok e :: r.1, r.2)
    | .err q =>
      let r := yaml_parser_run q n
      (.failed :: r.1, r.2)
    | .crash => ([.crashed], p)

/-- The parser component of a `parse_result` (the unchanged argument is
irrelevant for `crash`, which carries no parser). -/
def pr_p (d : yaml_parser_t) : parse_result → yaml_parser_t
  | .ok p _ => p
  | .err p => p
  | .crash => d

/-- The event component of a `parse_result`. -/
def pr_e : parse_result → yaml_event_t
  | .ok _ e => e
  | _ => {}

/-- A simple concrete source mark for test tokens. -/
def mk_mark (i : Nat) : yaml_mark_t := { index := i, line := 0, column := i }

/-- A test token of the given kind spanning positions `i` to `i+1`. -/
def mk_token (t : yaml_token_type_t) (i : Nat) : yaml_token_t :=
  { token_type := t, start_mark := mk_mark i, end_mark := mk_mark (i+1) }

/-- Token sequence of spec scenario 3: explicit document with `%YAML 1.1`
and a `%TAG` directive. -/
def c1_tokens : List yaml_token_t :=
  [ mk_token .YAML_STREAM_START_TOKEN 0
  , { mk_token .YAML_VERSION_DIRECTIVE_TOKEN 1 with major := 1, minor := 1 }
  , { mk_token .YAML_TAG_DIRECTIVE_TOKEN 2 with
        value := byte_str "!e!"
      , prefix_bytes := byte_str "tag:example.com,2024:" }
  , mk_token .YAML_DOCUMENT_START_TOKEN 3
  , { mk_token .YAML_SCALAR_TOKEN 4 with
        value := byte_str "x", style := YAML_PLAIN_SCALAR_STYLE }
  , mk_token .YAML_DOCUMENT_END_TOKEN 5
  , mk_token .YAML_STREAM_END_TOKEN 6 ]

/-- Token sequence with a tag token on a node (spec scenario 6 shape). -/
def c2_tokens : List yaml_token_t :=
  [ mk_token .YAML_STREAM_START_TOKEN 0
  , { mk_token .YAML_TAG_TOKEN 1 with
        value := byte_str "!missing!", suffix := byte_str "foo" }
  , { mk_token .YAML_SCALAR_TOKEN 2 with
        value := byte_str "x", style := YAML_PLAIN_SCALAR_STYLE }
  , mk_token .YAML_STREAM_END_TOKEN 3 ]

/-- A stream that immediately violates the grammar (no stream-start). -/
def c3_tokens : List yaml_token_t := [ mk_token .YAML_SCALAR_TOKEN 0 ]

/-- The parser after its first (failing) call on `c3_tokens`: a parser
error is latched. -/
def c3_errored : yaml_parser_t := (yaml_parser_run (mkParser c3_tokens) 1).2

/-- Token sequence of spec scenario 2: single implicit plain scalar. -/
def c4_tokens : List yaml_token_t :=
  [ mk_token .YAML_STREAM_START_TOKEN 0
  , { mk_token .YAML_SCALAR_TOKEN 1 with
        value := byte_str "foo", style := YAML_PLAIN_SCALAR_STYLE }
  , mk_token .YAML_STREAM_END_TOKEN 2 ]

/-- The parser after the full five-event run on `c4_tokens`:
`stream_end_produced` is latched. -/
def c5_done : yaml_parser_t := (yaml_parser_run (mkParser c4_tokens) 5).2

/-- A parser in the INDENTLESS-SEQUENCE-ENTRY state whose lookahead token
(document-end) is outside {block-entry, key, value, block-end}. -/
def c6_state : yaml_parser_t :=
  { mkParser [ mk_token .YAML_DOCUMENT_END_TOKEN 9 ] with
      state := .YAML_PARSE_INDENTLESS_SEQUENCE_ENTRY_STATE
    , states := [ .YAML_PARSE_DOCUMENT_END_STATE ] }

/-- Token sequence with a single `%YAML 1.1` directive before an explicit
document. -/
def c7_tokens : List yaml_token_t :=
  [ mk_token .YAML_STREAM_START_TOKEN 0
  , { mk_token .YAML_VERSION_DIRECTIVE_TOKEN 1 with major := 1, minor := 1 }
  , mk_token .YAML_DOCUMENT_START_TOKEN 2
  , { mk_token .YAML_SCALAR_TOKEN 3 with
        value := byte_str "x", style := YAML_PLAIN_SCALAR_STYLE }
  , mk_token .YAML_DOCUMENT_END_TOKEN 4
  , mk_token .YAML_STREAM_END_TOKEN 5 ]

/-- Like `c7_tokens` but with a `%YAML 1.2` version directive. -/
def c7b_tokens : List yaml_token_t :=
  [ mk_token .YAML_STREAM_START_TOKEN 0
  , { mk_token .YAML_VERSION_DIRECTIVE_TOKEN 1 with major := 1, minor := 2 }
  , mk_token .YAML_DOCUMENT_START_TOKEN 2
  , mk_token .YAML_STREAM_END_TOKEN 3 ]

/-- The parser two calls into the `c4_tokens` run: in the BLOCK-NODE state,
about to emit the scalar event. -/
def c8w_state : yaml_parser_t := (yaml_parser_run (mkParser c4_tokens) 2).2

/-- The implicit-flag discipline of scalar events (spec section 3,
invariants): `plain_implicit` only for plain style with an empty tag or for
the tag `!` (byte 33); `quoted_implicit` only for non-plain style with an
empty tag; never both. -/
def scalar_flags_ok (e : yaml_event_t) : Prop :=
  (e.implicit = true →
    ((e.style = YAML_PLAIN_SCALAR_STYLE ∧ e.tag = []) ∨ e.tag = [33])) ∧
  (e.quoted_implicit = true →
    (e.style ≠ YAML_PLAIN_SCALAR_STYLE ∧ e.tag = [])) ∧
  ¬(e.implicit = true ∧ e.quoted_implicit = true)

/-- Tokens for `a:\n- 1\n`: a block mapping whose value is an indentless
sequence. -/
def c9_tokens : List yaml_token_t :=
  [ mk_token .YAML_STREAM_START_TOKEN 0
  , mk_token .YAML_BLOCK_MAPPING_START_TOKEN 1
  , mk_token .YAML_KEY_TOKEN 2
  , { mk_token .YAML_SCALAR_TOKEN 3 with
        value := byte_str "a", style := YAML_PLAIN_SCALAR_STYLE }
  , mk_token .YAML_VALUE_TOKEN 4
  , mk_token .YAML_BLOCK_ENTRY_TOKEN 5
  , { mk_token .YAML_SCALAR_TOKEN 6 with
        value := byte_str "1", style := YAML_PLAIN_SCALAR_STYLE }
  , mk_token .YAML_BLOCK_END_TOKEN 7
  , mk_token .YAML_STREAM_END_TOKEN 8 ]

/-- Number of collection-start events among the call results. -/
def collection_start_count (l : List call_result) : Nat :=
  l.countP (fun r =>
    match r with
    | .ok e => decide (e.event_type = .YAML_SEQUENCE_START_EVENT ∨
                       e.event_type = .YAML_MAPPING_START_EVENT)
    | _ => false)

/-- Number of collection-end events among the call results. -/
def collection_end_count (l : List call_result) : Nat :=
  l.countP (fun r =>
    match r with
    | .ok e => decide (e.event_type = .YAML_SEQUENCE_END_EVENT ∨
                       e.event_type = .YAML_MAPPING_END_EVENT)
    | _ => false)

/-- Number of currently open collections after the given call results: the
start events minus the end events. -/
def open_collection_count (l : List call_result) : Nat :=
  collection_start_count l - collection_end_count l

/-- Weight of a parser state for the mark-stack accounting: 1 for the
body/continuation states of the collections whose FIRST-entry handler pushed
a mark (block sequence, block mapping, flow sequence with its inline
single-pair mapping sub-states, flow mapping), 0 for every other state — in
particular for the FIRST-entry states themselves (the mark is pushed only
when their handler runs) and for INDENTLESS-SEQUENCE-ENTRY (indentless
sequences never push a mark). -/
def state_weight : yaml_parser_state_t → Nat
  | .YAML_PARSE_BLOCK_SEQUENCE_ENTRY_STATE => 1
  | .YAML_PARSE_BLOCK_MAPPING_KEY_STATE => 1
  | .YAML_PARSE_BLOCK_MAPPING_VALUE_STATE => 1
  | .YAML_PARSE_FLOW_SEQUENCE_ENTRY_STATE => 1
  | .YAML_PARSE_FLOW_SEQUENCE_ENTRY_MAPPING_KEY_STATE => 1
  | .YAML_PARSE_FLOW_SEQUENCE_ENTRY_MAPPING_VALUE_STATE => 1
  | .YAML_PARSE_FLOW_SEQUENCE_ENTRY_MAPPING_END_STATE => 1
  | .YAML_PARSE_FLOW_MAPPING_KEY_STATE => 1
  | .YAML_PARSE_FLOW_MAPPING_VALUE_STATE => 1
  | .YAML_PARSE_FLOW_MAPPING_EMPTY_VALUE_STATE => 1
  | _ => 0

/-- Total weight of the current state plus the state stack. -/
def stack_weight (p : yaml_parser_t) : Nat :=
  state_weight p.state + (p.states.map state_weight).sum

/-- The mark-stack discipline: the mark stack's depth equals the number of
marked-collection continuation states currently on the state stack (or
current). -/
def marks_invariant (p : yaml_parser_t) : Prop :=
  p.marks.length = stack_weight p

/-- A parser in a state whose handler null-checks its first peek, with an
exhausted token queue. -/
def c10_checked_state : yaml_parser_t :=
  { mkParser [] with state := .YAML_PARSE_BLOCK_NODE_STATE }

/-- A parser in the BLOCK-SEQUENCE-FIRST-ENTRY state with an exhausted
token queue: the handler reads the start mark of the null peek result. -/
def c10_first_state : yaml_parser_t :=
  { mkParser [] with state := .YAML_PARSE_BLOCK_SEQUENCE_FIRST_ENTRY_STATE }

/-- Claim C4: for the token sequence STREAM-START, SCALAR("foo", plain),
STREAM-END, five calls to next_event produce exactly stream-start,
document-start(implicit), scalar("foo", plain, plain_implicit, not
quoted_implicit, empty tag and anchor), document-end(implicit), stream-end,
each call returning ok. -/
theorem C4_implicit_scalar_run :
    (yaml_parser_run (mkParser c4_tokens) 5).1 =
      [ .ok { event_type := .YAML_STREAM_START_EVENT
            , start_mark := mk_mark 0, end_mark := mk_mark 1 }
      , .ok { event_type := .YAML_DOCUMENT_START_EVENT
            , start_mark := mk_mark 1, end_mark := mk_mark 2
            , implicit := true }
      , .ok { event_type := .YAML_SCALAR_EVENT
            , start_mark := mk_mark 1, end_mark := mk_mark 2
            , value := byte_str "foo", implicit := true
            , style := YAML_PLAIN_SCALAR_STYLE }
      , .ok { event_type := .YAML_DOCUMENT_END_EVENT
            , start_mark := mk_mark 2, end_mark := mk_mark 2
            , implicit := true }
      , .ok { event_type := .YAML_STREAM_END_EVENT
            , start_mark := mk_mark 2, end_mark := mk_mark 3 } ] := by decide

/-- Claim C1 (code bug evaluation): on the token sequence STREAM-START,
VERSION(1,1), TAG("!e!","tag:example.com,2024:"), DOCUMENT-START,
SCALAR("x"), DOCUMENT-END, STREAM-END, the second next_event call returns
false with problem "found duplicate %YAML directive" instead of the
document-start event the claim describes: the directive loop re-examines
the same version token because its inner peek shadows the loop variable. -/
theorem C1_directive_shadowing_run :
    (yaml_parser_run (mkParser c1_tokens) 2).1 =
      [ .ok { event_type := .YAML_STREAM_START_EVENT
            , start_mark := mk_mark 0, end_mark := mk_mark 1 }
      , .failed ] ∧
    (yaml_parser_run (mkParser c1_tokens) 2).2.error = .YAML_PARSER_ERROR ∧
    (yaml_parser_run (mkParser c1_tokens) 2).2.problem =
      "found duplicate %YAML directive" := by decide

/-- Claim C2 (code bug evaluation): on a stream whose node carries a tag
token, the third next_event call crashes with a nil-pointer dereference
(the Go local tag_handle of type pointer-to-byte-slice is written through
while nil) instead of resolving the handle or reporting "found undefined
tag handle". -/
theorem C2_tag_token_crash_run :
    (yaml_parser_run (mkParser c2_tokens) 3).1 =
      [ .ok { event_type := .YAML_STREAM_START_EVENT
            , start_mark := mk_mark 0, end_mark := mk_mark 1 }
      , .ok { event_type := .YAML_DOCUMENT_START_EVENT
            , start_mark := mk_mark 1, end_mark := mk_mark 2
            , implicit := true }
      , .crashed ] := by decide

/-- Claim C7 (code bug evaluation): a document with a single %YAML 1.1
directive fails directive processing with "found duplicate %YAML
directive" (the shadowed loop variable re-examines the same token), so the
claim part "otherwise the version is recorded and processing continues"
does not hold; the incompatible-version check does fire for %YAML 1.2 with
"found incompatible YAML document". -/
theorem C7_version_directive_eval :
    (yaml_parser_run (mkParser c7_tokens) 2).1 =
      [ .ok { event_type := .YAML_STREAM_START_EVENT
            , start_mark := mk_mark 0, end_mark := mk_mark 1 }
      , .failed ] ∧
    (yaml_parser_run (mkParser c7_tokens) 2).2.problem =
      "found duplicate %YAML directive" ∧
    (yaml_parser_run (mkParser c7b_tokens) 2).1 =
      [ .ok { event_type := .YAML_STREAM_START_EVENT
            , start_mark := mk_mark 0, end_mark := mk_mark 1 }
      , .failed ] ∧
    (yaml_parser_run (mkParser c7b_tokens) 2).2.problem =
      "found incompatible YAML document" := by decide

/-- Claim C3 counterexample: after a latched parser error (here from a
stream not starting with STREAM-START), the next call to next_event
returns ok=true with a zeroed event, not false as the claim states. -/
theorem C3_counterexample :
    (yaml_parser_run (mkParser c3_tokens) 2).1 = [.failed, .ok {}] ∧
    c3_errored.error = .YAML_PARSER_ERROR ∧
    c3_errored.problem = "did not find expected <stream-start>" := by decide

/-- Claim C3 (amended): once an error is latched (parser.error is not
no-error), every subsequent next_event call returns true with a zeroed
event and leaves the parser, including all its error fields, unchanged. -/
theorem C3_error_latched_noop (p : yaml_parser_t)
    (h : p.error ≠ .YAML_NO_ERROR) :
    yaml_parser_parse p = .ok p {} := by
  unfold yaml_parser_parse
  rw [if_pos (Or.inr (Or.inl h))]

theorem C3_error_latched_noop_witness :
    yaml_parser_parse c3_errored = .ok c3_errored {} :=
  C3_error_latched_noop c3_errored (by decide)

/-- Claim C5: once stream_end_produced is latched, every subsequent
next_event call returns ok=true with the zero event and leaves the parser
unchanged (consuming no tokens); iterating any number of calls yields only
zero events. -/
theorem C5_no_events_after_stream_end (p : yaml_parser_t) (n : Nat)
    (h : p.stream_end_produced = true) :
    yaml_parser_run p n = (List.replicate n (.ok {}), p) := by
  induction n with
  | zero => rfl
  | succ k ih =>
    have hp : yaml_parser_parse p = .ok p {} := by
      unfold yaml_parser_parse
      rw [if_pos (Or.inl h)]
    simp only [yaml_parser_run, hp, ih, List.replicate_succ]

theorem C5_no_events_after_stream_end_witness :
    yaml_parser_run c5_done 2 = (List.replicate 2 (.ok {}), c5_done) :=
  C5_no_events_after_stream_end c5_done 2 (by decide)

/-- Claim C9 counterexample: in the run of a block mapping whose value is
an indentless sequence, after five events two collections are open (the
mapping and the indentless sequence) but the mark stack has depth one: the
indentless sequence's block-style sequence-start pushed no mark. -/
theorem C9_counterexample :
    open_collection_count (yaml_parser_run (mkParser c9_tokens) 5).1 = 2 ∧
    (yaml_parser_run (mkParser c9_tokens) 5).2.marks.length = 1 := by decide

/-- Claim C10 counterexample: in the BLOCK-SEQUENCE-FIRST-ENTRY state
with an exhausted token queue, next_event crashes (the handler reads the
start mark of the null peek result) instead of returning false. -/
theorem C10_counterexample :
    yaml_parser_parse c10_first_state = .crash := by decide

/-- Claim C6: in the INDENTLESS-SEQUENCE-ENTRY state, any lookahead token
outside the set of block-entry, key, value and block-end tokens terminates
the sequence: next_event emits a sequence-end event whose start and end
marks both equal that token's start mark, without consuming the token. -/
theorem C6_indentless_termination (p : yaml_parser_t) (t : yaml_token_t)
    (rest : List yaml_token_t) (s : yaml_parser_state_t)
    (ss : List yaml_parser_state_t)
    (hst : p.state = .YAML_PARSE_INDENTLESS_SEQUENCE_ENTRY_STATE)
    (herr : p.error = .YAML_NO_ERROR)
    (hend : p.stream_end_produced = false)
    (htok : p.tokens = t :: rest)
    (hstk : p.states = s :: ss)
    (h1 : t.token_type ≠ .YAML_BLOCK_ENTRY_TOKEN)
    (h2 : t.token_type ≠ .YAML_KEY_TOKEN)
    (h3 : t.token_type ≠ .YAML_VALUE_TOKEN)
    (h4 : t.token_type ≠ .YAML_BLOCK_END_TOKEN) :
    yaml_parser_parse p =
      .ok { p with state := s, states := ss }
        { event_type := .YAML_SEQUENCE_END_EVENT
        , start_mark := t.start_mark, end_mark := t.start_mark } := by
  have hguard : ¬(p.stream_end_produced = true ∨ p.error ≠ .YAML_NO_ERROR ∨
      p.state = .YAML_PARSE_END_STATE) := by
    simp [hend, herr, hst]
  unfold yaml_parser_parse
  rw [if_neg hguard]
  unfold yaml_parser_state_machine
  rw [hst]
  unfold yaml_parser_parse_indentless_sequence_entry peek_token
  rw [htok]
  simp only [List.head?]
  rw [if_neg h1, hstk]

theorem C6_indentless_termination_witness :
    yaml_parser_parse c6_state =
      .ok { c6_state with state := .YAML_PARSE_DOCUMENT_END_STATE
                        , states := [] }
        { event_type := .YAML_SEQUENCE_END_EVENT
        , start_mark := mk_mark 9, end_mark := mk_mark 9 } :=
  C6_indentless_termination c6_state (mk_token .YAML_DOCUMENT_END_TOKEN 9) []
    .YAML_PARSE_DOCUMENT_END_STATE [] rfl rfl rfl rfl rfl
    (by decide) (by decide) (by decide) (by decide)

/-- Claim C10 (amended): when the token queue is exhausted on an
error-free, unfinished parser, every state other than END and the four
FIRST-ENTRY states returns false from next_event without touching the null
peek result; in the four FIRST-ENTRY states the handler dereferences the
null result and crashes. -/
theorem C10_null_peek_behavior :
    (∀ p : yaml_parser_t, p.error = .YAML_NO_ERROR →
       p.stream_end_produced = false →
       p.state ≠ .YAML_PARSE_END_STATE →
       p.state ≠ .YAML_PARSE_BLOCK_SEQUENCE_FIRST_ENTRY_STATE →
       p.state ≠ .YAML_PARSE_BLOCK_MAPPING_FIRST_KEY_STATE →
       p.state ≠ .YAML_PARSE_FLOW_SEQUENCE_FIRST_ENTRY_STATE →
       p.state ≠ .YAML_PARSE_FLOW_MAPPING_FIRST_KEY_STATE →
       p.tokens = [] → yaml_parser_parse p = .err p) ∧
    (∀ p : yaml_parser_t, p.error = .YAML_NO_ERROR →
       p.stream_end_produced = false →
       (p.state = .YAML_PARSE_BLOCK_SEQUENCE_FIRST_ENTRY_STATE ∨
        p.state = .YAML_PARSE_BLOCK_MAPPING_FIRST_KEY_STATE ∨
        p.state = .YAML_PARSE_FLOW_SEQUENCE_FIRST_ENTRY_STATE ∨
        p.state = .YAML_PARSE_FLOW_MAPPING_FIRST_KEY_STATE) →
       p.tokens = [] → yaml_parser_parse p = .crash) := by
  constructor
  · intro p herr hend hE h1 h2 h3 h4 htok
    have hguard : ¬(p.stream_end_produced = true ∨ p.error ≠ .YAML_NO_ERROR ∨
        p.state = .YAML_PARSE_END_STATE) := by simp [hend, herr, hE]
    unfold yaml_parser_parse
    rw [if_neg hguard]
    unfold yaml_parser_state_machine
    cases hs : p.state <;>
      simp_all [yaml_parser_parse_stream_start,
        yaml_parser_parse_document_start,
        yaml_parser_parse_document_content,
        yaml_parser_parse_document_end,
        yaml_parser_parse_node,
        yaml_parser_parse_block_sequence_entry,
        yaml_parser_parse_block_sequence_entry_body,
        yaml_parser_parse_indentless_sequence_entry,
        yaml_parser_parse_block_mapping_key,
        yaml_parser_parse_block_mapping_key_body,
        yaml_parser_parse_block_mapping_value,
        yaml_parser_parse_flow_sequence_entry,
        yaml_parser_parse_flow_sequence_entry_body,
        yaml_parser_parse_flow_sequence_entry_mapping_key,
        yaml_parser_parse_flow_sequence_entry_mapping_value,
        yaml_parser_parse_flow_sequence_entry_mapping_end,
        yaml_parser_parse_flow_mapping_key,
        yaml_parser_parse_flow_mapping_key_body,
        yaml_parser_parse_flow_mapping_value,
        peek_token]
  · intro p herr hend hs htok
    have hE : p.state ≠ .YAML_PARSE_END_STATE := by
      rcases hs with h | h | h | h <;> simp [h]
    have hguard : ¬(p.stream_end_produced = true ∨ p.error ≠ .YAML_NO_ERROR ∨
        p.state = .YAML_PARSE_END_STATE) := by simp [hend, herr, hE]
    unfold yaml_parser_parse
    rw [if_neg hguard]
    unfold yaml_parser_state_machine
    rcases hs with h | h | h | h <;> rw [h] <;>
      simp [yaml_parser_parse_block_sequence_entry,
        yaml_parser_parse_block_mapping_key,
        yaml_parser_parse_flow_sequence_entry,
        yaml_parser_parse_flow_mapping_key,
        peek_token, htok]

theorem C10_null_peek_behavior_witness :
    yaml_parser_parse c10_checked_state = .err c10_checked_state :=
  C10_null_peek_behavior.1 c10_checked_state rfl rfl (by decide) (by decide)
    (by decide) (by decide) (by decide) rfl

theorem len_one_head_eq {l : List Nat} (h1 : l.length = 1)
    (h2 : l.headD 0 = 33) : l = [33] := by
  cases l with
  | nil => simp at h1
  | cons a t =>
    simp only [List.length_cons, Nat.add_left_eq_self] at h1
    simp only [List.headD_cons] at h2
    simp [List.length_eq_zero.mp h1, h2]

theorem empty_scalar_flags {p : yaml_parser_t} {m : yaml_mark_t}
    {p' : yaml_parser_t} {e : yaml_event_t}
    (h : yaml_parser_process_empty_scalar p m = .ok p' e) :
    scalar_flags_ok e := by
  unfold yaml_parser_process_empty_scalar at h
  injection h with h1 h2
  subst h2
  simp [scalar_flags_ok, YAML_PLAIN_SCALAR_STYLE]

theorem dispatch_flags {p : yaml_parser_t} {b i : Bool} {tok : yaml_token_t}
    {sm em : yaml_mark_t} {anchor tag : List Nat}
    {p' : yaml_parser_t} {e : yaml_event_t}
    (h : yaml_parser_parse_node_dispatch p b i tok sm em anchor tag = .ok p' e)
    (hs : e.event_type = .YAML_SCALAR_EVENT) : scalar_flags_ok e := by
  unfold yaml_parser_parse_node_dispatch at h
  split at h
  · injection h with h1 h2; subst h2; simp at hs
  split at h
  · -- scalar token branch
    split at h
    · exact absurd h (by simp)
    · injection h with h1 h2
      subst h2
      refine ⟨?_, ?_, ?_⟩
      · intro hi
        simp only [decide_eq_true_eq] at hi
        rcases hi with ⟨hsty, hlen⟩ | ⟨hlen, hhd⟩
        · exact Or.inl ⟨hsty, List.length_eq_zero.mp hlen⟩
        · exact Or.inr (len_one_head_eq hlen hhd)
      · intro hq
        simp only [Bool.and_eq_true, Bool.not_eq_true',
          decide_eq_false_iff_not, decide_eq_true_eq] at hq
        obtain ⟨hnp, hlen⟩ := hq
        exact ⟨fun hsty => hnp (Or.inl ⟨hsty, hlen⟩),
          List.length_eq_zero.mp hlen⟩
      · rintro ⟨hi, hq⟩
        have hi' : decide ((tok.style = YAML_PLAIN_SCALAR_STYLE ∧
            tag.length = 0) ∨ (tag.length = 1 ∧ tag.headD 0 = 33)) = true := hi
        have hq' : (!decide ((tok.style = YAML_PLAIN_SCALAR_STYLE ∧
            tag.length = 0) ∨ (tag.length = 1 ∧ tag.headD 0 = 33)) &&
            decide (tag.length = 0)) = true := hq
        rw [hi'] at hq'
        simp at hq' 
  split at h
  · injection h with h1 h2; subst h2; simp at hs
  split at h
  · injection h with h1 h2; subst h2; simp at hs
  split at h
  · injection h with h1 h2; subst h2; simp at hs
  split at h
  · injection h with h1 h2; subst h2; simp at hs
  split at h
  · -- properties-only scalar
    split at h
    · exact absurd h (by simp)
    · injection h with h1 h2
      subst h2
      refine ⟨?_, ?_, ?_⟩
      · intro hi
        simp only [decide_eq_true_eq] at hi
        exact Or.inl ⟨rfl, List.length_eq_zero.mp hi⟩
      · intro hq; simp at hq
      · rintro ⟨_, hq⟩; simp at hq
  · exact absurd h (by simp)

theorem content_flags {p : yaml_parser_t} {b i : Bool} {tok : yaml_token_t}
    {sm em tm : yaml_mark_t} {anchor : List Nat} {th : Option (List Nat)}
    {ts : List Nat} {p' : yaml_parser_t} {e : yaml_event_t}
    (h : yaml_parser_parse_node_content p b i tok sm em anchor th ts tm
          = .ok p' e)
    (hs : e.event_type = .YAML_SCALAR_EVENT) : scalar_flags_ok e := by
  unfold yaml_parser_parse_node_content at h
  split at h
  · exact absurd h (by simp)
  · exact dispatch_flags h hs

theorem parse_node_flags {p : yaml_parser_t} {b i : Bool}
    {p' : yaml_parser_t} {e : yaml_event_t}
    (h : yaml_parser_parse_node p b i = .ok p' e)
    (hs : e.event_type = .YAML_SCALAR_EVENT) : scalar_flags_ok e := by
  simp only [yaml_parser_parse_node] at h
  repeat' split at h
  all_goals first
    | exact content_flags h hs
    | exact parse_result.noConfusion h
    | (injection h with h1 h2; subst h2; simp at hs)

theorem fs_tail_flags {p : yaml_parser_t} {t : yaml_token_t}
    {p' : yaml_parser_t} {e : yaml_event_t}
    (h : yaml_parser_flow_sequence_end_tail p t = .ok p' e)
    (hs : e.event_type = .YAML_SCALAR_EVENT) : scalar_flags_ok e := by
  simp only [yaml_parser_flow_sequence_end_tail] at h
  repeat' split at h
  all_goals first
    | exact parse_result.noConfusion h
    | (injection h with h1 h2; subst h2; simp at hs)

theorem fm_tail_flags {p : yaml_parser_t} {t : yaml_token_t}
    {p' : yaml_parser_t} {e : yaml_event_t}
    (h : yaml_parser_flow_mapping_end_tail p t = .ok p' e)
    (hs : e.event_type = .YAML_SCALAR_EVENT) : scalar_flags_ok e := by
  simp only [yaml_parser_flow_mapping_end_tail] at h
  repeat' split at h
  all_goals first
    | exact parse_result.noConfusion h
    | (injection h with h1 h2; subst h2; simp at hs)

theorem stream_start_flags {p p' : yaml_parser_t} {e : yaml_event_t}
    (h : yaml_parser_parse_stream_start p = .ok p' e)
    (hs : e.event_type = .YAML_SCALAR_EVENT) : scalar_flags_ok e := by
  simp only [yaml_parser_parse_stream_start] at h
  repeat' split at h
  all_goals first
    | exact parse_result.noConfusion h
    | (injection h with h1 h2; subst h2; simp at hs)

theorem doc_start_flags {p : yaml_parser_t} {im : Bool}
    {p' : yaml_parser_t} {e : yaml_event_t}
    (h : yaml_parser_parse_document_start p im = .ok p' e)
    (hs : e.event_type = .YAML_SCALAR_EVENT) : scalar_flags_ok e := by
  simp only [yaml_parser_parse_document_start] at h
  repeat' split at h
  all_goals first
    | exact parse_result.noConfusion h
    | (injection h with h1 h2; subst h2; simp at hs)

theorem doc_content_flags {p p' : yaml_parser_t} {e : yaml_event_t}
    (h : yaml_parser_parse_document_content p = .ok p' e)
    (hs : e.event_type = .YAML_SCALAR_EVENT) : scalar_flags_ok e := by
  simp only [yaml_parser_parse_document_content] at h
  repeat' split at h
  all_goals first
    | exact parse_node_flags h hs
    | exact empty_scalar_flags h
    | exact parse_result.noConfusion h
    | (injection h with h1 h2; subst h2; simp at hs)

theorem doc_end_flags {p p' : yaml_parser_t} {e : yaml_event_t}
    (h : yaml_parser_parse_document_end p = .ok p' e)
    (hs : e.event_type = .YAML_SCALAR_EVENT) : scalar_flags_ok e := by
  simp only [yaml_parser_parse_document_end] at h
  repeat' split at h
  all_goals first
    | exact parse_result.noConfusion h
    | (injection h with h1 h2; subst h2; simp at hs)

theorem bse_body_flags {p p' : yaml_parser_t} {e : yaml_event_t}
    (h : yaml_parser_parse_block_sequence_entry_body p = .ok p' e)
    (hs : e.event_type = .YAML_SCALAR_EVENT) : scalar_flags_ok e := by
  simp only [yaml_parser_parse_block_sequence_entry_body] at h
  repeat' split at h
  all_goals first
    | exact parse_node_flags h hs
    | exact empty_scalar_flags h
    | exact parse_result.noConfusion h
    | (injection h with h1 h2; subst h2; simp at hs)

theorem bse_flags {p : yaml_parser_t} {first : Bool}
    {p' : yaml_parser_t} {e : yaml_event_t}
    (h : yaml_parser_parse_block_sequence_entry p first = .ok p' e)
    (hs : e.event_type = .YAML_SCALAR_EVENT) : scalar_flags_ok e := by
  simp only [yaml_parser_parse_block_sequence_entry] at h
  repeat' split at h
  all_goals first
    | exact bse_body_flags h hs
    | exact parse_result.noConfusion h

theorem ise_flags {p p' : yaml_parser_t} {e : yaml_event_t}
    (h : yaml_parser_parse_indentless_sequence_entry p = .ok p' e)
    (hs : e.event_type = .YAML_SCALAR_EVENT) : scalar_flags_ok e := by
  simp only [yaml_parser_parse_indentless_sequence_entry] at h
  repeat' split at h
  all_goals first
    | exact parse_node_flags h hs
    | exact empty_scalar_flags h
    | exact parse_result.noConfusion h
    | (injection h with h1 h2; subst h2; simp at hs)

theorem bmk_body_flags {p p' : yaml_parser_t} {e : yaml_event_t}
    (h : yaml_parser_parse_block_mapping_key_body p = .ok p' e)
    (hs : e.event_type = .YAML_SCALAR_EVENT) : scalar_flags_ok e := by
  simp only [yaml_parser_parse_block_mapping_key_body] at h
  repeat' split at h
  all_goals first
    | exact parse_node_flags h hs
    | exact empty_scalar_flags h
    | exact parse_result.noConfusion h
    | (injection h with h1 h2; subst h2; simp at hs)

theorem bmk_flags {p : yaml_parser_t} {first : Bool}
    {p' : yaml_parser_t} {e : yaml_event_t}
    (h : yaml_parser_parse_block_mapping_key p first = .ok p' e)
    (hs : e.event_type = .YAML_SCALAR_EVENT) : scalar_flags_ok e := by
  simp only [yaml_parser_parse_block_mapping_key] at h
  repeat' split at h
  all_goals first
    | exact bmk_body_flags h hs
    | exact parse_result.noConfusion h

theorem bmv_flags {p p' : yaml_parser_t} {e : yaml_event_t}
    (h : yaml_parser_parse_block_mapping_value p = .ok p' e)
    (hs : e.event_type = .YAML_SCALAR_EVENT) : scalar_flags_ok e := by
  simp only [yaml_parser_parse_block_mapping_value] at h
  repeat' split at h
  all_goals first
    | exact parse_node_flags h hs
    | exact empty_scalar_flags h
    | exact parse_result.noConfusion h
    | (injection h with h1 h2; subst h2; simp at hs)

theorem fse_item_flags {p : yaml_parser_t} {t : yaml_token_t}
    {p' : yaml_parser_t} {e : yaml_event_t}
    (h : yaml_parser_flow_sequence_entry_item p t = .ok p' e)
    (hs : e.event_type = .YAML_SCALAR_EVENT) : scalar_flags_ok e := by
  simp only [yaml_parser_flow_sequence_entry_item] at h
  repeat' split at h
  all_goals first
    | exact parse_node_flags h hs
    | exact fs_tail_flags h hs
    | exact parse_result.noConfusion h
    | (injection h with h1 h2; subst h2; simp at hs)

theorem fse_body_flags {p : yaml_parser_t} {first : Bool}
    {p' : yaml_parser_t} {e : yaml_event_t}
    (h : yaml_parser_parse_flow_sequence_entry_body p first = .ok p' e)
    (hs : e.event_type = .YAML_SCALAR_EVENT) : scalar_flags_ok e := by
  simp only [yaml_parser_parse_flow_sequence_entry_body] at h
  repeat' split at h
  all_goals first
    | exact fse_item_flags h hs
    | exact fs_tail_flags h hs
    | exact parse_result.noConfusion h

theorem fse_flags {p : yaml_parser_t} {first : Bool}
    {p' : yaml_parser_t} {e : yaml_event_t}
    (h : yaml_parser_parse_flow_sequence_entry p first = .ok p' e)
    (hs : e.event_type = .YAML_SCALAR_EVENT) : scalar_flags_ok e := by
  simp only [yaml_parser_parse_flow_sequence_entry] at h
  repeat' split at h
  all_goals first
    | exact fse_body_flags h hs
    | exact parse_result.noConfusion h

theorem fsemk_flags {p p' : yaml_parser_t} {e : yaml_event_t}
    (h : yaml_parser_parse_flow_sequence_entry_mapping_key p = .ok p' e)
    (hs : e.event_type = .YAML_SCALAR_EVENT) : scalar_flags_ok e := by
  simp only [yaml_parser_parse_flow_sequence_entry_mapping_key] at h
  repeat' split at h
  all_goals first
    | exact parse_node_flags h hs
    | exact empty_scalar_flags h
    | exact parse_result.noConfusion h
    | (injection h with h1 h2; subst h2; simp at hs)

theorem fsemv_flags {p p' : yaml_parser_t} {e : yaml_event_t}
    (h : yaml_parser_parse_flow_sequence_entry_mapping_value p = .ok p' e)
    (hs : e.event_type = .YAML_SCALAR_EVENT) : scalar_flags_ok e := by
  simp only [yaml_parser_parse_flow_sequence_entry_mapping_value] at h
  repeat' split at h
  all_goals first
    | exact parse_node_flags h hs
    | exact empty_scalar_flags h
    | exact parse_result.noConfusion h
    | (injection h with h1 h2; subst h2; simp at hs)

theorem fseme_flags {p p' : yaml_parser_t} {e : yaml_event_t}
    (h : yaml_parser_parse_flow_sequence_entry_mapping_end p = .ok p' e)
    (hs : e.event_type = .YAML_SCALAR_EVENT) : scalar_flags_ok e := by
  simp only [yaml_parser_parse_flow_sequence_entry_mapping_end] at h
  repeat' split at h
  all_goals first
    | exact parse_result.noConfusion h
    | (injection h with h1 h2; subst h2; simp at hs)

theorem fmk_item_flags {p : yaml_parser_t} {t : yaml_token_t}
    {p' : yaml_parser_t} {e : yaml_event_t}
    (h : yaml_parser_flow_mapping_entry_item p t = .ok p' e)
    (hs : e.event_type = .YAML_SCALAR_EVENT) : scalar_flags_ok e := by
  simp only [yaml_parser_flow_mapping_entry_item] at h
  repeat' split at h
  all_goals first
    | exact parse_node_flags h hs
    | exact empty_scalar_flags h
    | exact fm_tail_flags h hs
    | exact parse_result.noConfusion h
    | (injection h with h1 h2; subst h2; simp at hs)

theorem fmk_body_flags {p : yaml_parser_t} {first : Bool}
    {p' : yaml_parser_t} {e : yaml_event_t}
    (h : yaml_parser_parse_flow_mapping_key_body p first = .ok p' e)
    (hs : e.event_type = .YAML_SCALAR_EVENT) : scalar_flags_ok e := by
  simp only [yaml_parser_parse_flow_mapping_key_body] at h
  repeat' split at h
  all_goals first
    | exact fmk_item_flags h hs
    | exact fm_tail_flags h hs
    | exact parse_result.noConfusion h

theorem fmk_flags {p : yaml_parser_t} {first : Bool}
    {p' : yaml_parser_t} {e : yaml_event_t}
    (h : yaml_parser_parse_flow_mapping_key p first = .ok p' e)
    (hs : e.event_type = .YAML_SCALAR_EVENT) : scalar_flags_ok e := by
  simp only [yaml_parser_parse_flow_mapping_key] at h
  repeat' split at h
  all_goals first
    | exact fmk_body_flags h hs
    | exact parse_result.noConfusion h

theorem fmv_flags {p : yaml_parser_t} {empty : Bool}
    {p' : yaml_parser_t} {e : yaml_event_t}
    (h : yaml_parser_parse_flow_mapping_value p empty = .ok p' e)
    (hs : e.event_type = .YAML_SCALAR_EVENT) : scalar_flags_ok e := by
  simp only [yaml_parser_parse_flow_mapping_value] at h
  repeat' split at h
  all_goals first
    | exact parse_node_flags h hs
    | exact empty_scalar_flags h
    | exact parse_result.noConfusion h
    | (injection h with h1 h2; subst h2; simp at hs)

/-- Claim C8: every scalar event emitted by next_event satisfies the
implicit-flag discipline: plain_implicit only for a plain-style scalar
with an empty tag or for the tag that is exactly the byte 33; quoted_implicit
only for a non-plain scalar with an empty tag; never both. -/
theorem C8_scalar_implicit_flags (p p' : yaml_parser_t) (e : yaml_event_t)
    (h : yaml_parser_parse p = .ok p' e)
    (hs : e.event_type = .YAML_SCALAR_EVENT) : scalar_flags_ok e := by
  unfold yaml_parser_parse at h
  split at h
  · injection h with h1 h2; subst h2; simp at hs
  · unfold yaml_parser_state_machine at h
    split at h <;> first
      | exact parse_node_flags h hs
      | exact stream_start_flags h hs
      | exact doc_start_flags h hs
      | exact doc_content_flags h hs
      | exact doc_end_flags h hs
      | exact bse_flags h hs
      | exact ise_flags h hs
      | exact bmk_flags h hs
      | exact bmv_flags h hs
      | exact fse_flags h hs
      | exact fsemk_flags h hs
      | exact fsemv_flags h hs
      | exact fseme_flags h hs
      | exact fmk_flags h hs
      | exact fmv_flags h hs
      | exact parse_result.noConfusion h

theorem C8_scalar_implicit_flags_witness :
    scalar_flags_ok (pr_e (yaml_parser_parse c8w_state)) :=
  C8_scalar_implicit_flags c8w_state
    (pr_p c8w_state (yaml_parser_parse c8w_state))
    (pr_e (yaml_parser_parse c8w_state)) (by decide) (by decide)


theorem skip_token_marks (p : yaml_parser_t) :
    (skip_token p).marks = p.marks := by
  unfold skip_token; split <;> rfl

theorem skip_token_state (p : yaml_parser_t) :
    (skip_token p).state = p.state := by
  unfold skip_token; split <;> rfl

theorem skip_token_states (p : yaml_parser_t) :
    (skip_token p).states = p.states := by
  unfold skip_token; split <;> rfl

theorem empty_scalar_shape {p : yaml_parser_t} {m : yaml_mark_t}
    {p' : yaml_parser_t} {e : yaml_event_t}
    (h : yaml_parser_process_empty_scalar p m = .ok p' e) : p' = p := by
  unfold yaml_parser_process_empty_scalar at h
  injection h with h1 h2
  exact h1.symm

theorem dispatch_shape {p : yaml_parser_t} {b i : Bool} {tok : yaml_token_t}
    {sm em : yaml_mark_t} {anchor tag : List Nat}
    {p' : yaml_parser_t} {e : yaml_event_t}
    (h : yaml_parser_parse_node_dispatch p b i tok sm em anchor tag = .ok p' e) :
    p'.marks = p.marks ∧
    (p.states = p'.state :: p'.states ∨
     (p'.states = p.states ∧ state_weight p'.state = 0)) := by
  simp only [yaml_parser_parse_node_dispatch] at h
  repeat' split at h
  all_goals first
    | exact parse_result.noConfusion h
    | (injection h with h1 h2; subst h1;
       simp_all [skip_token_marks, skip_token_state, skip_token_states,
         state_weight])

theorem content_shape {p : yaml_parser_t} {b i : Bool} {tok : yaml_token_t}
    {sm em tm : yaml_mark_t} {anchor : List Nat} {th : Option (List Nat)}
    {ts : List Nat} {p' : yaml_parser_t} {e : yaml_event_t}
    (h : yaml_parser_parse_node_content p b i tok sm em anchor th ts tm
          = .ok p' e) :
    p'.marks = p.marks ∧
    (p.states = p'.state :: p'.states ∨
     (p'.states = p.states ∧ state_weight p'.state = 0)) := by
  unfold yaml_parser_parse_node_content at h
  split at h
  · exact parse_result.noConfusion h
  · exact dispatch_shape h

theorem parse_node_shape {p : yaml_parser_t} {b i : Bool}
    {p' : yaml_parser_t} {e : yaml_event_t}
    (h : yaml_parser_parse_node p b i = .ok p' e) :
    p'.marks = p.marks ∧
    (p.states = p'.state :: p'.states ∨
     (p'.states = p.states ∧ state_weight p'.state = 0)) := by
  simp only [yaml_parser_parse_node] at h
  repeat' split at h
  all_goals first
    | exact parse_result.noConfusion h
    | exact content_shape h
    | (injection h with h1 h2; subst h1;
       simp_all [skip_token_marks, skip_token_state, skip_token_states,
         state_weight])
    | (obtain ⟨hm, hst⟩ := content_shape h;
       constructor <;>
         simp_all [skip_token_marks, skip_token_state, skip_token_states])

theorem parse_node_sum {p : yaml_parser_t} {b i : Bool}
    {p' : yaml_parser_t} {e : yaml_event_t}
    (h : yaml_parser_parse_node p b i = .ok p' e) :
    p'.marks = p.marks ∧
    state_weight p'.state + (p'.states.map state_weight).sum =
      (p.states.map state_weight).sum := by
  obtain ⟨hm, hst⟩ := parse_node_shape h
  refine ⟨hm, ?_⟩
  rcases hst with hpop | ⟨hsame, hzero⟩
  · rw [hpop]; simp
  · rw [hsame, hzero, Nat.zero_add]

theorem append_td_shape {p : yaml_parser_t} {v : yaml_tag_directive_t}
    {a : Bool} {m : yaml_mark_t} {q : yaml_parser_t}
    (h : yaml_parser_append_tag_directive p v a m = .aOk q) :
    q.marks = p.marks ∧ q.state = p.state ∧ q.states = p.states := by
  unfold yaml_parser_append_tag_directive at h
  repeat' split at h
  all_goals first
    | exact append_result.noConfusion h
    | (injection h with h1; subst h1; exact ⟨rfl, rfl, rfl⟩)

theorem append_list_shape {l : List yaml_tag_directive_t}
    {p : yaml_parser_t} {m : yaml_mark_t} {q : yaml_parser_t}
    (h : yaml_parser_append_tag_directives_list p l m = .aOk q) :
    q.marks = p.marks ∧ q.state = p.state ∧ q.states = p.states := by
  induction l generalizing p with
  | nil =>
    unfold yaml_parser_append_tag_directives_list at h
    injection h with h1; subst h1; exact ⟨rfl, rfl, rfl⟩
  | cons d rest ih =>
    unfold yaml_parser_append_tag_directives_list at h
    split at h
    · exact append_result.noConfusion h
    case _ r hr =>
      obtain ⟨a1, a2, a3⟩ := append_td_shape hr
      obtain ⟨b1, b2, b3⟩ := ih h
      exact ⟨b1.trans a1, b2.trans a2, b3.trans a3⟩

theorem directives_loop_shape {tok : yaml_token_t} {p : yaml_parser_t}
    {vd : Option yaml_version_directive_t}
    {tds : List yaml_tag_directive_t} {fuel : Nat}
    {q : yaml_parser_t} {vd' : Option yaml_version_directive_t}
    {tds' : List yaml_tag_directive_t}
    (h : yaml_parser_process_directives_loop tok p vd tds fuel
          = .dOk q vd' tds') :
    q.marks = p.marks ∧ q.state = p.state ∧ q.states = p.states := by
  induction fuel generalizing p vd tds with
  | zero =>
    unfold yaml_parser_process_directives_loop at h
    exact directives_result.noConfusion h
  | succ n ih =>
    simp only [yaml_parser_process_directives_loop] at h
    split at h
    case isTrue hdir =>
      split at h
      case isTrue hver =>
        split at h
        · exact directives_result.noConfusion h
        · split at h
          · exact directives_result.noConfusion h
          · split at h
            · exact directives_result.noConfusion h
            · obtain ⟨a1, a2, a3⟩ := ih h
              simp_all [skip_token_marks, skip_token_state, skip_token_states]
      case isFalse hver =>
        split at h
        · exact directives_result.noConfusion h
        case _ q2 happ =>
          split at h
          · exact directives_result.noConfusion h
          · obtain ⟨b1, b2, b3⟩ := append_td_shape happ
            obtain ⟨a1, a2, a3⟩ := ih h
            simp_all [skip_token_marks, skip_token_state, skip_token_states]
    case isFalse hdir =>
      injection h with h1 h2 h3
      subst h1
      exact ⟨rfl, rfl, rfl⟩

theorem process_directives_shape {p q : yaml_parser_t}
    {vd : Option yaml_version_directive_t}
    {tds : List yaml_tag_directive_t}
    (h : yaml_parser_process_directives p = .dOk q vd tds) :
    q.marks = p.marks ∧ q.state = p.state ∧ q.states = p.states := by
  unfold yaml_parser_process_directives at h
  repeat' split at h
  all_goals first
    | exact directives_result.noConfusion h
    | (injection h with h1 h2 h3; subst h1;
       obtain ⟨a1, a2, a3⟩ := directives_loop_shape (by assumption);
       obtain ⟨b1, b2, b3⟩ := append_list_shape (by assumption);
       exact ⟨b1.trans a1, b2.trans a2, b3.trans a3⟩)

theorem stray_shape {fuel : Nat} {p : yaml_parser_t}
    {t : Option yaml_token_t} {q : yaml_parser_t}
    (h : yaml_parser_skip_stray_document_ends fuel p = (t, q)) :
    q.marks = p.marks ∧ q.state = p.state ∧ q.states = p.states := by
  induction fuel generalizing p with
  | zero =>
    unfold yaml_parser_skip_stray_document_ends at h
    injection h with h1 h2; subst h2; exact ⟨rfl, rfl, rfl⟩
  | succ n ih =>
    unfold yaml_parser_skip_stray_document_ends at h
    repeat' split at h
    all_goals first
      | (injection h with h1 h2; subst h2; exact ⟨rfl, rfl, rfl⟩)
      | (obtain ⟨a1, a2, a3⟩ := ih h;
         simp_all [skip_token_marks, skip_token_state, skip_token_states])

theorem parse_node_marks {p : yaml_parser_t} {b i : Bool}
    {p' : yaml_parser_t} {e : yaml_event_t}
    (h : yaml_parser_parse_node p b i = .ok p' e)
    (hw : state_weight p.state = 0)
    (hInv : marks_invariant p) : marks_invariant p' := by
  obtain ⟨hm, hsum⟩ := parse_node_sum h
  simp_all [marks_invariant, stack_weight] <;> omega

theorem empty_scalar_marks {p : yaml_parser_t} {m : yaml_mark_t}
    {p' : yaml_parser_t} {e : yaml_event_t}
    (h : yaml_parser_process_empty_scalar p m = .ok p' e)
    (hInv : marks_invariant p) : marks_invariant p' := by
  have hp := empty_scalar_shape h
  subst hp
  exact hInv

theorem stream_start_marks {p p' : yaml_parser_t} {e : yaml_event_t}
    (h : yaml_parser_parse_stream_start p = .ok p' e)
    (hw : state_weight p.state = 0)
    (hInv : marks_invariant p) : marks_invariant p' := by
  simp only [yaml_parser_parse_stream_start] at h
  repeat' split at h
  all_goals first
    | exact parse_result.noConfusion h
    | (injection h with h1 h2; subst h1;
       simp_all [marks_invariant, stack_weight, state_weight,
         skip_token_marks, skip_token_state, skip_token_states] <;> omega)

theorem doc_start_marks {p : yaml_parser_t} {im : Bool}
    {p' : yaml_parser_t} {e : yaml_event_t}
    (h : yaml_parser_parse_document_start p im = .ok p' e)
    (hw : state_weight p.state = 0)
    (hInv : marks_invariant p) : marks_invariant p' := by
  simp only [yaml_parser_parse_document_start] at h
  split at h
  · exact parse_result.noConfusion h
  · split at h
    · exact parse_result.noConfusion h
    case _ token p1 hsel =>
      have hp1 : p1.marks = p.marks ∧ p1.state = p.state ∧
          p1.states = p.states := by
        split at hsel
        · injection hsel with hsel1 hsel2
          subst hsel2
          exact ⟨rfl, rfl, rfl⟩
        · exact stray_shape hsel
      obtain ⟨e1, e2, e3⟩ := hp1
      split at h
      · -- implicit document branch
        split at h
        · exact parse_result.noConfusion h
        · exact parse_result.noConfusion h
        case _ q vd tds hdir =>
          obtain ⟨d1, d2, d3⟩ := process_directives_shape hdir
          injection h with h1 h2
          subst h1
          simp_all [marks_invariant, stack_weight, state_weight]
      · split at h
        · -- explicit document branch
          split at h
          · exact parse_result.noConfusion h
          · exact parse_result.noConfusion h
          case _ q vd tds hdir =>
            obtain ⟨d1, d2, d3⟩ := process_directives_shape hdir
            split at h
            · exact parse_result.noConfusion h
            · split at h
              · exact parse_result.noConfusion h
              · injection h with h1 h2
                subst h1
                simp_all [marks_invariant, stack_weight, state_weight,
                  skip_token_marks, skip_token_state, skip_token_states]
        · -- stream end branch
          injection h with h1 h2
          subst h1
          simp_all [marks_invariant, stack_weight, state_weight,
            skip_token_marks, skip_token_state, skip_token_states]

theorem doc_content_marks {p p' : yaml_parser_t} {e : yaml_event_t}
    (h : yaml_parser_parse_document_content p = .ok p' e)
    (hw : state_weight p.state = 0)
    (hInv : marks_invariant p) : marks_invariant p' := by
  simp only [yaml_parser_parse_document_content] at h
  repeat' split at h
  all_goals first
    | exact parse_result.noConfusion h
    | exact parse_node_marks h hw hInv
    | (have hp := empty_scalar_shape h; subst hp;
       simp_all [marks_invariant, stack_weight, state_weight] <;> omega)

theorem doc_end_marks {p p' : yaml_parser_t} {e : yaml_event_t}
    (h : yaml_parser_parse_document_end p = .ok p' e)
    (hw : state_weight p.state = 0)
    (hInv : marks_invariant p) : marks_invariant p' := by
  simp only [yaml_parser_parse_document_end] at h
  repeat' split at h
  all_goals first
    | exact parse_result.noConfusion h
    | (injection h with h1 h2; subst h1;
       simp_all [marks_invariant, stack_weight, state_weight,
         skip_token_marks, skip_token_state, skip_token_states] <;> omega)

theorem bse_body_marks {p p' : yaml_parser_t} {e : yaml_event_t}
    (h : yaml_parser_parse_block_sequence_entry_body p = .ok p' e)
    (hq : p.marks.length = 1 + (p.states.map state_weight).sum) :
    marks_invariant p' := by
  simp only [yaml_parser_parse_block_sequence_entry_body] at h
  repeat' split at h
  all_goals first
    | exact parse_result.noConfusion h
    | (obtain ⟨hm, hsum⟩ := parse_node_sum h;
       simp_all [marks_invariant, stack_weight, state_weight,
         skip_token_marks, skip_token_state, skip_token_states] <;> omega)
    | (have hp := empty_scalar_shape h; subst hp;
       simp_all [marks_invariant, stack_weight, state_weight,
         skip_token_marks, skip_token_state, skip_token_states] <;> omega)
    | (injection h with h1 h2; subst h1;
       simp_all [marks_invariant, stack_weight, state_weight,
         skip_token_marks, skip_token_state, skip_token_states] <;> omega)

theorem bse_marks {p : yaml_parser_t} {first : Bool}
    {p' : yaml_parser_t} {e : yaml_event_t}
    (h : yaml_parser_parse_block_sequence_entry p first = .ok p' e)
    (hw : state_weight p.state = if first = true then 0 else 1)
    (hInv : marks_invariant p) : marks_invariant p' := by
  simp only [yaml_parser_parse_block_sequence_entry] at h
  split at h
  · split at h
    · exact parse_result.noConfusion h
    · refine bse_body_marks h ?_
      simp_all [marks_invariant, stack_weight, state_weight,
        skip_token_marks, skip_token_state, skip_token_states] <;> omega
  · refine bse_body_marks h ?_
    simp_all [marks_invariant, stack_weight] <;> omega

theorem bmk_body_marks {p p' : yaml_parser_t} {e : yaml_event_t}
    (h : yaml_parser_parse_block_mapping_key_body p = .ok p' e)
    (hq : p.marks.length = 1 + (p.states.map state_weight).sum) :
    marks_invariant p' := by
  simp only [yaml_parser_parse_block_mapping_key_body] at h
  repeat' split at h
  all_goals first
    | exact parse_result.noConfusion h
    | (obtain ⟨hm, hsum⟩ := parse_node_sum h;
       simp_all [marks_invariant, stack_weight, state_weight,
         skip_token_marks, skip_token_state, skip_token_states] <;> omega)
    | (have hp := empty_scalar_shape h; subst hp;
       simp_all [marks_invariant, stack_weight, state_weight,
         skip_token_marks, skip_token_state, skip_token_states] <;> omega)
    | (injection h with h1 h2; subst h1;
       simp_all [marks_invariant, stack_weight, state_weight,
         skip_token_marks, skip_token_state, skip_token_states] <;> omega)

theorem bmk_marks {p : yaml_parser_t} {first : Bool}
    {p' : yaml_parser_t} {e : yaml_event_t}
    (h : yaml_parser_parse_block_mapping_key p first = .ok p' e)
    (hw : state_weight p.state = if first = true then 0 else 1)
    (hInv : marks_invariant p) : marks_invariant p' := by
  simp only [yaml_parser_parse_block_mapping_key] at h
  split at h
  · split at h
    · exact parse_result.noConfusion h
    · refine bmk_body_marks h ?_
      simp_all [marks_invariant, stack_weight, state_weight,
        skip_token_marks, skip_token_state, skip_token_states] <;> omega
  · refine bmk_body_marks h ?_
    simp_all [marks_invariant, stack_weight] <;> omega

theorem ise_marks {p p' : yaml_parser_t} {e : yaml_event_t}
    (h : yaml_parser_parse_indentless_sequence_entry p = .ok p' e)
    (hw : state_weight p.state = 0)
    (hInv : marks_invariant p) : marks_invariant p' := by
  simp only [yaml_parser_parse_indentless_sequence_entry] at h
  repeat' split at h
  all_goals first
    | exact parse_result.noConfusion h
    | (obtain ⟨hm, hsum⟩ := parse_node_sum h;
       simp_all [marks_invariant, stack_weight, state_weight,
         skip_token_marks, skip_token_state, skip_token_states] <;> omega)
    | (have hp := empty_scalar_shape h; subst hp;
       simp_all [marks_invariant, stack_weight, state_weight,
         skip_token_marks, skip_token_state, skip_token_states] <;> omega)
    | (injection h with h1 h2; subst h1;
       simp_all [marks_invariant, stack_weight, state_weight,
         skip_token_marks, skip_token_state, skip_token_states] <;> omega)

theorem bmv_marks {p p' : yaml_parser_t} {e : yaml_event_t}
    (h : yaml_parser_parse_block_mapping_value p = .ok p' e)
    (hw : state_weight p.state = 1)
    (hInv : marks_invariant p) : marks_invariant p' := by
  simp only [yaml_parser_parse_block_mapping_value] at h
  repeat' split at h
  all_goals first
    | exact parse_result.noConfusion h
    | (obtain ⟨hm, hsum⟩ := parse_node_sum h;
       simp_all [marks_invariant, stack_weight, state_weight,
         skip_token_marks, skip_token_state, skip_token_states] <;> omega)
    | (have hp := empty_scalar_shape h; subst hp;
       simp_all [marks_invariant, stack_weight, state_weight,
         skip_token_marks, skip_token_state, skip_token_states] <;> omega)

theorem fs_tail_marks {p : yaml_parser_t} {t : yaml_token_t}
    {p' : yaml_parser_t} {e : yaml_event_t}
    (h : yaml_parser_flow_sequence_end_tail p t = .ok p' e)
    (hq : p.marks.length = 1 + (p.states.map state_weight).sum) :
    marks_invariant p' := by
  simp only [yaml_parser_flow_sequence_end_tail] at h
  repeat' split at h
  all_goals first
    | exact parse_result.noConfusion h
    | (injection h with h1 h2; subst h1;
       simp_all [marks_invariant, stack_weight, state_weight,
         skip_token_marks, skip_token_state, skip_token_states] <;> omega)

theorem fm_tail_marks {p : yaml_parser_t} {t : yaml_token_t}
    {p' : yaml_parser_t} {e : yaml_event_t}
    (h : yaml_parser_flow_mapping_end_tail p t = .ok p' e)
    (hq : p.marks.length = 1 + (p.states.map state_weight).sum) :
    marks_invariant p' := by
  simp only [yaml_parser_flow_mapping_end_tail] at h
  repeat' split at h
  all_goals first
    | exact parse_result.noConfusion h
    | (injection h with h1 h2; subst h1;
       simp_all [marks_invariant, stack_weight, state_weight,
         skip_token_marks, skip_token_state, skip_token_states] <;> omega)

theorem fse_item_marks {p : yaml_parser_t} {t : yaml_token_t}
    {p' : yaml_parser_t} {e : yaml_event_t}
    (h : yaml_parser_flow_sequence_entry_item p t = .ok p' e)
    (hq : p.marks.length = 1 + (p.states.map state_weight).sum) :
    marks_invariant p' := by
  simp only [yaml_parser_flow_sequence_entry_item] at h
  repeat' split at h
  all_goals first
    | exact parse_result.noConfusion h
    | exact fs_tail_marks h hq
    | (obtain ⟨hm, hsum⟩ := parse_node_sum h;
       simp_all [marks_invariant, stack_weight, state_weight,
         skip_token_marks, skip_token_state, skip_token_states] <;> omega)
    | (injection h with h1 h2; subst h1;
       simp_all [marks_invariant, stack_weight, state_weight,
         skip_token_marks, skip_token_state, skip_token_states] <;> omega)

theorem fmk_item_marks {p : yaml_parser_t} {t : yaml_token_t}
    {p' : yaml_parser_t} {e : yaml_event_t}
    (h : yaml_parser_flow_mapping_entry_item p t = .ok p' e)
    (hq : p.marks.length = 1 + (p.states.map state_weight).sum) :
    marks_invariant p' := by
  simp only [yaml_parser_flow_mapping_entry_item] at h
  repeat' split at h
  all_goals first
    | exact parse_result.noConfusion h
    | exact fm_tail_marks h hq
    | (obtain ⟨hm, hsum⟩ := parse_node_sum h;
       simp_all [marks_invariant, stack_weight, state_weight,
         skip_token_marks, skip_token_state, skip_token_states] <;> omega)
    | (have hp := empty_scalar_shape h; subst hp;
       simp_all [marks_invariant, stack_weight, state_weight,
         skip_token_marks, skip_token_state, skip_token_states] <;> omega)

theorem fse_body_marks {p : yaml_parser_t} {first : Bool}
    {p' : yaml_parser_t} {e : yaml_event_t}
    (h : yaml_parser_parse_flow_sequence_entry_body p first = .ok p' e)
    (hq : p.marks.length = 1 + (p.states.map state_weight).sum) :
    marks_invariant p' := by
  simp only [yaml_parser_parse_flow_sequence_entry_body] at h
  repeat' split at h
  all_goals first
    | exact parse_result.noConfusion h
    | exact fse_item_marks h hq
    | exact fs_tail_marks h hq
    | (refine fse_item_marks h ?_;
       simp_all [skip_token_marks, skip_token_state, skip_token_states]
         <;> omega)

theorem fse_marks {p : yaml_parser_t} {first : Bool}
    {p' : yaml_parser_t} {e : yaml_event_t}
    (h : yaml_parser_parse_flow_sequence_entry p first = .ok p' e)
    (hw : state_weight p.state = if first = true then 0 else 1)
    (hInv : marks_invariant p) : marks_invariant p' := by
  simp only [yaml_parser_parse_flow_sequence_entry] at h
  split at h
  · split at h
    · exact parse_result.noConfusion h
    · refine fse_body_marks h ?_
      simp_all [marks_invariant, stack_weight, state_weight,
        skip_token_marks, skip_token_state, skip_token_states] <;> omega
  · refine fse_body_marks h ?_
    simp_all [marks_invariant, stack_weight] <;> omega

theorem fmk_body_marks {p : yaml_parser_t} {first : Bool}
    {p' : yaml_parser_t} {e : yaml_event_t}
    (h : yaml_parser_parse_flow_mapping_key_body p first = .ok p' e)
    (hq : p.marks.length = 1 + (p.states.map state_weight).sum) :
    marks_invariant p' := by
  simp only [yaml_parser_parse_flow_mapping_key_body] at h
  repeat' split at h
  all_goals first
    | exact parse_result.noConfusion h
    | exact fmk_item_marks h hq
    | exact fm_tail_marks h hq
    | (refine fmk_item_marks h ?_;
       simp_all [skip_token_marks, skip_token_state, skip_token_states]
         <;> omega)

theorem fmk_marks {p : yaml_parser_t} {first : Bool}
    {p' : yaml_parser_t} {e : yaml_event_t}
    (h : yaml_parser_parse_flow_mapping_key p first = .ok p' e)
    (hw : state_weight p.state = if first = true then 0 else 1)
    (hInv : marks_invariant p) : marks_invariant p' := by
  simp only [yaml_parser_parse_flow_mapping_key] at h
  split at h
  · split at h
    · exact parse_result.noConfusion h
    · refine fmk_body_marks h ?_
      simp_all [marks_invariant, stack_weight, state_weight,
        skip_token_marks, skip_token_state, skip_token_states] <;> omega
  · refine fmk_body_marks h ?_
    simp_all [marks_invariant, stack_weight] <;> omega

theorem fsemk_marks {p p' : yaml_parser_t} {e : yaml_event_t}
    (h : yaml_parser_parse_flow_sequence_entry_mapping_key p = .ok p' e)
    (hw : state_weight p.state = 1)
    (hInv : marks_invariant p) : marks_invariant p' := by
  simp only [yaml_parser_parse_flow_sequence_entry_mapping_key] at h
  repeat' split at h
  all_goals first
    | exact parse_result.noConfusion h
    | (obtain ⟨hm, hsum⟩ := parse_node_sum h;
       simp_all [marks_invariant, stack_weight, state_weight,
         skip_token_marks, skip_token_state, skip_token_states] <;> omega)
    | (have hp := empty_scalar_shape h; subst hp;
       simp_all [marks_invariant, stack_weight, state_weight,
         skip_token_marks, skip_token_state, skip_token_states] <;> omega)

theorem fsemv_marks {p p' : yaml_parser_t} {e : yaml_event_t}
    (h : yaml_parser_parse_flow_sequence_entry_mapping_value p = .ok p' e)
    (hw : state_weight p.state = 1)
    (hInv : marks_invariant p) : marks_invariant p' := by
  simp only [yaml_parser_parse_flow_sequence_entry_mapping_value] at h
  repeat' split at h
  all_goals first
    | exact parse_result.noConfusion h
    | (obtain ⟨hm, hsum⟩ := parse_node_sum h;
       simp_all [marks_invariant, stack_weight, state_weight,
         skip_token_marks, skip_token_state, skip_token_states] <;> omega)
    | (have hp := empty_scalar_shape h; subst hp;
       simp_all [marks_invariant, stack_weight, state_weight,
         skip_token_marks, skip_token_state, skip_token_states] <;> omega)

theorem fseme_marks {p p' : yaml_parser_t} {e : yaml_event_t}
    (h : yaml_parser_parse_flow_sequence_entry_mapping_end p = .ok p' e)
    (hw : state_weight p.state = 1)
    (hInv : marks_invariant p) : marks_invariant p' := by
  simp only [yaml_parser_parse_flow_sequence_entry_mapping_end] at h
  repeat' split at h
  all_goals first
    | exact parse_result.noConfusion h
    | (injection h with h1 h2; subst h1;
       simp_all [marks_invariant, stack_weight, state_weight] <;> omega)

theorem fmv_marks {p : yaml_parser_t} {empty : Bool}
    {p' : yaml_parser_t} {e : yaml_event_t}
    (h : yaml_parser_parse_flow_mapping_value p empty = .ok p' e)
    (hw : state_weight p.state = 1)
    (hInv : marks_invariant p) : marks_invariant p' := by
  simp only [yaml_parser_parse_flow_mapping_value] at h
  repeat' split at h
  all_goals first
    | exact parse_result.noConfusion h
    | (obtain ⟨hm, hsum⟩ := parse_node_sum h;
       simp_all [marks_invariant, stack_weight, state_weight,
         skip_token_marks, skip_token_state, skip_token_states] <;> omega)
    | (have hp := empty_scalar_shape h; subst hp;
       simp_all [marks_invariant, stack_weight, state_weight,
         skip_token_marks, skip_token_state, skip_token_states] <;> omega)

/-- Claim C9 (amended): the initial parser satisfies the mark-stack
discipline, and every successful next_event step preserves it: the mark
stack's depth always equals the number of marked-collection continuation
states (block/flow sequence-entry and mapping key/value states) on the
state stack, counting the current state. Indentless sequences and inline
single-pair flow mappings contribute no mark. -/
theorem C9_mark_stack_discipline :
    (∀ ts : List yaml_token_t, marks_invariant (mkParser ts)) ∧
    (∀ p p' : yaml_parser_t, ∀ e : yaml_event_t, marks_invariant p →
       yaml_parser_parse p = .ok p' e → marks_invariant p') := by
  constructor
  · intro ts; rfl
  · intro p p' e hInv h
    unfold yaml_parser_parse at h
    split at h
    · injection h with h1 h2
      exact h1 ▸ hInv
    · unfold yaml_parser_state_machine at h
      split at h <;> first
        | exact parse_result.noConfusion h
        | exact stream_start_marks h (by simp_all [state_weight]) hInv
        | exact doc_start_marks h (by simp_all [state_weight]) hInv
        | exact doc_content_marks h (by simp_all [state_weight]) hInv
        | exact doc_end_marks h (by simp_all [state_weight]) hInv
        | exact parse_node_marks h (by simp_all [state_weight]) hInv
        | exact bse_marks h (by simp_all [state_weight]) hInv
        | exact ise_marks h (by simp_all [state_weight]) hInv
        | exact bmk_marks h (by simp_all [state_weight]) hInv
        | exact bmv_marks h (by simp_all [state_weight]) hInv
        | exact fse_marks h (by simp_all [state_weight]) hInv
        | exact fsemk_marks h (by simp_all [state_weight]) hInv
        | exact fsemv_marks h (by simp_all [state_weight]) hInv
        | exact fseme_marks h (by simp_all [state_weight]) hInv
        | exact fmk_marks h (by simp_all [state_weight]) hInv
        | exact fmv_marks h (by simp_all [state_weight]) hInv

/-- Witness for the C9 discipline theorem at a concrete step of the
run over `c9_tokens`. -/
theorem C9_mark_stack_discipline_witness :
    marks_invariant (pr_p (mkParser c9_tokens)
      (yaml_parser_parse (mkParser c9_tokens))) :=
  C9_mark_stack_discipline.2 (mkParser c9_tokens)
    (pr_p (mkParser c9_tokens) (yaml_parser_parse (mkParser c9_tokens)))
    (pr_e (yaml_parser_parse (mkParser c9_tokens)))
    (by unfold marks_invariant; decide) (by decide)
